import Mathlib

/-!
Verification development for the swarm orchestration core of molt-ai/swarm-cro
(src/web/src/lib/swarm/swarm-runner.ts and src/web/src/lib/swarm/types.ts).

Modelling conventions:
- JavaScript numbers are modelled as rationals. The division-by-zero cases
  that would produce NaN/Infinity in JavaScript are modelled explicitly at
  each site where they can occur (guards on emptiness, explicit Infinity
  strings), so no theorem relies on the 0/0 = 0 convention of rationals.
- Thrown JavaScript values are modelled by JsError: some msg is an Error
  object carrying msg as its message, none is a thrown non-Error value.
- Ambient effects are oracles passed explicitly: Math.random draws feed the
  shuffle as chosen swap indices, Date.now readings are clock oracles.
- JavaScript objects used as string-keyed maps (sessionsByVariant,
  exitReasonCounts, variantResults) are modelled as insertion-ordered
  association lists, matching Object.entries / Object.values enumeration
  order for the non-numeric string keys used here.
- Array.prototype.sort with comparator (a, b) => keyOf b - keyOf a is a
  stable descending sort; it is modelled by a stable insertion sort.
-/

namespace SwarmCro

/-- A thrown JavaScript value: some msg is an Error with that message,
none is a non-Error value (for which the code substitutes a fixed text). -/
abbrev JsError := Option String

/-- The message extraction in swarm-runner.ts:
error instanceof Error ? error.message : (fixed text). -/
def errMsgOf : JsError → String
  | some m => m
  | none => "Unknown error"

/-- Math.round: round half toward positive infinity. -/
def jsRound (q : ℚ) : ℤ := ⌊q + 1 / 2⌋

/-- Number formatting used for template interpolation and toFixed(0). The
decimal rendering details are irrelevant to every theorem below; only the
insight string of claim C7, which contains no number, is ever inspected. -/
def fmt0 (q : ℚ) : String := toString (jsRound q)

/-- Truthiness of an optional string field, as tested by
filter(s => s.exitReason): undefined and the empty string are falsy. -/
def jsTruthyStr : Option String → Bool
  | none => false
  | some s => s ≠ ""

/-- x || d for an optional count: undefined and 0 (falsy) give the default. -/
def jsOrNat : Option ℕ → ℕ → ℕ
  | none, d => d
  | some 0, d => d
  | some n, _ => n

/-- x || d for an optional rational: undefined and 0 (falsy) give the default. -/
def jsOrQ (x : Option ℚ) (d : ℚ) : ℚ :=
  match x with
  | none => d
  | some q => if q = 0 then d else q

/-- Personas are opaque to the scheduler and the aggregator: no field of a
persona is ever read by the code under verification, so only an identity
is modelled (lib/persona supplies richer data that is passed through). -/
structure Persona where
  id : String
deriving DecidableEq, Repr

/-- Agent impression values from types.ts. -/
inductive Impression
  | positive
  | neutral
  | negative
deriving DecidableEq, Repr

/-- AgentActionType from types.ts. -/
inductive AgentActionType
  | navigate
  | click
  | scroll
  | hover
  | typeText
  | wait
  | read
  | leave
  | convert
deriving DecidableEq, Repr

/-- AgentAction from types.ts. -/
structure AgentAction where
  type : AgentActionType
  target : Option String
  details : Option String
  timestamp : ℚ
  durationMs : Option ℚ
  reasoning : Option String
deriving DecidableEq, Repr

/-- SessionMetrics from types.ts. -/
structure SessionMetrics where
  timeOnPage : ℚ
  scrollDepth : ℚ
  scrollDepthPercent : ℚ
  clickCount : ℚ
  hoverCount : ℚ
  readTimeMs : ℚ
  hesitationCount : ℚ
  rageClicks : ℚ
  elementsEngaged : List String
  loadTimeMs : ℚ
deriving DecidableEq, Repr

/-- AgentSession from types.ts. The persona field is Option because the
queue construction in runExperiment indexes personas[i % personas.length],
which is undefined when the persona list is empty, and that value flows
unchecked into createFailedSession. -/
structure AgentSession where
  id : String
  persona : Option Persona
  variantId : String
  url : String
  actions : List AgentAction
  metrics : SessionMetrics
  converted : Bool
  conversionTrigger : Option String
  exitReason : Option String
  impression : Option Impression
  feedback : Option String
  startedAt : ℚ
  endedAt : ℚ
  errors : Option (List String)
deriving DecidableEq, Repr

/-- ConversionGoal.type from types.ts. -/
inductive GoalType
  | click
  | submit
  | navigate
  | custom
deriving DecidableEq, Repr

/-- ConversionGoal from types.ts. -/
structure ConversionGoal where
  type : GoalType
  target : String
  description : String
deriving DecidableEq, Repr

/-- The changes payload { css?, js? } passed to the session executor. -/
structure Changes where
  css : Option String
  js : Option String
deriving DecidableEq, Repr

/-- ExperimentVariant from types.ts. -/
structure ExperimentVariant where
  id : String
  name : String
  isControl : Bool
  css : Option String
  js : Option String
deriving DecidableEq, Repr

/-- ExperimentConfig from types.ts. sessionsPerVariant is an arbitrary
JavaScript number (possibly zero or negative): the session loop
for (let i = 0; i < sessionsPerVariant; i++) then performs
max(0, sessionsPerVariant) iterations, modelled by Int.toNat. -/
structure ExperimentConfig where
  id : String
  name : String
  url : String
  variants : List ExperimentVariant
  conversionGoal : ConversionGoal
  personas : List Persona
  sessionsPerVariant : ℤ
  maxConcurrent : Option ℤ
deriving DecidableEq, Repr

/-- Experiment lifecycle states from types.ts. -/
inductive ExpState
  | pending
  | running
  | analyzing
  | completed
  | failed
deriving DecidableEq, Repr

/-- ExperimentStatus from types.ts. sessionsByVariant maps variant ids to
counters; a none counter models the NaN a JavaScript increment of a
missing key would produce. -/
structure ExperimentStatus where
  experimentId : String
  state : ExpState
  progress : ℚ
  completedSessions : ℕ
  totalSessions : ℕ
  sessionsByVariant : List (String × Option ℚ)
  error : Option String
  estimatedTimeRemaining : Option ℤ
deriving DecidableEq, Repr

/-- One entry of topExitReasons. -/
structure ReasonCount where
  reason : String
  count : ℕ
deriving DecidableEq, Repr

/-- One entry of topConversionTriggers. -/
structure TriggerCount where
  trigger : String
  count : ℕ
deriving DecidableEq, Repr

/-- VariantResult from types.ts. -/
structure VariantResult where
  variantId : String
  sessions : ℕ
  conversions : ℕ
  conversionRate : ℚ
  avgTimeOnPage : ℚ
  avgScrollDepth : ℚ
  avgClicks : ℚ
  bounceRate : ℚ
  topExitReasons : List ReasonCount
  topConversionTriggers : List TriggerCount
  engagementScore : ℤ
deriving DecidableEq, Repr

/-- ExperimentResults from types.ts, with variantResults as the
insertion-ordered entry list of the JavaScript record. -/
structure ExperimentResults where
  experimentId : String
  sessions : List AgentSession
  variantResults : List (String × VariantResult)
  winner : Option String
  confidence : ℚ
  isSignificant : Bool
  insights : List String
  recommendations : List String
deriving DecidableEq, Repr

/-- Sum of a rational-valued projection over a list, as produced by
sessions.reduce((sum, s) => sum + f(s), 0). -/
def sumBy (f : α → ℚ) (l : List α) : ℚ := (l.map f).sum

/-- One frequency-count step over an insertion-ordered association list:
counts[k] = (counts[k] || 0) + 1 keeps the position of an existing key and
appends a new key at the end, like a JavaScript object. -/
def bumpCount : List (String × ℕ) → String → List (String × ℕ)
  | [], k => [(k, 1)]
  | (k2, c) :: rest, k =>
      if k2 = k then (k2, c + 1) :: rest else (k2, c) :: bumpCount rest k

/-- Frequency counts of a key list in first-occurrence order, matching
Object.entries of an object filled by repeated increments. -/
def countsInOrder (keys : List String) : List (String × ℕ) := keys.foldl bumpCount []

/-- Insert into a list already sorted descending by key, after every
element with a strictly larger key and before ties: combined with foldr
below this gives a stable descending sort, the behaviour of
Array.prototype.sort with comparator (a, b) => key b - key a. -/
def insertDescBy (key : α → ℚ) (x : α) : List α → List α
  | [] => [x]
  | y :: ys => if key y > key x then y :: insertDescBy key x ys else x :: y :: ys

/-- Stable descending sort by a rational key. -/
def sortByDesc (key : α → ℚ) (l : List α) : List α := l.foldr (insertDescBy key) []

/-- Lookup in a JavaScript-object entry list: results[k]. -/
def jsGet (l : List (String × α)) (k : String) : Option α :=
  (l.find? (fun p => p.1 == k)).map (·.2)

/-- Assignment in a JavaScript-object entry list: obj[k] = v overwrites an
existing key in place or appends a new one. -/
def jsSet (l : List (String × Option ℚ)) (k : String) (v : Option ℚ) :
    List (String × Option ℚ) :=
  match l with
  | [] => [(k, v)]
  | (k2, v2) :: rest =>
      if k2 = k then (k2, v) :: rest else (k2, v2) :: jsSet rest k v

/-- Increment in a JavaScript-object entry list: obj[k]++ adds one to a
present numeric value, keeps NaN (modelled none) at NaN, and stores NaN
under a missing key (undefined + 1). -/
def jsIncr (l : List (String × Option ℚ)) (k : String) : List (String × Option ℚ) :=
  match l with
  | [] => [(k, none)]
  | (k2, v) :: rest =>
      if k2 = k then (k2, v.map (· + 1)) :: rest else (k2, v) :: jsIncr rest k

/-- calculateEngagementScore from swarm-runner.ts. -/
def calculateEngagementScore (sessions : List AgentSession) : ℤ :=
  if sessions.length = 0 then 0
  else
    let n : ℚ := sessions.length
    let avgTimeScore := min 100 (sumBy (fun s => s.metrics.timeOnPage) sessions / n / 300)
    let avgScrollScore := sumBy (fun s => s.metrics.scrollDepthPercent) sessions / n
    let avgClickScore := min 100 (sumBy (fun s => s.metrics.clickCount) sessions / n * 20)
    let positiveRate :=
      ((sessions.filter (fun s => s.impression == some .positive)).length : ℚ) / n * 100
    jsRound ((avgTimeScore + avgScrollScore + avgClickScore + positiveRate) / 4)

/-- createEmptyVariantResult from swarm-runner.ts. -/
def createEmptyVariantResult (variantId : String) : VariantResult where
  variantId := variantId
  sessions := 0
  conversions := 0
  conversionRate := 0
  avgTimeOnPage := 0
  avgScrollDepth := 0
  avgClicks := 0
  bounceRate := 0
  topExitReasons := []
  topConversionTriggers := []
  engagementScore := 0

/-- The per-variant branch of analyzeResults for a non-empty session group. -/
def mkVariantResult (variantId : String) (variantSessions : List AgentSession) :
    VariantResult :=
  let n : ℚ := variantSessions.length
  let conversions := (variantSessions.filter (fun s => s.converted)).length
  let totalTime := sumBy (fun s => s.metrics.timeOnPage) variantSessions
  let totalScroll := sumBy (fun s => s.metrics.scrollDepthPercent) variantSessions
  let totalClicks := sumBy (fun s => s.metrics.clickCount) variantSessions
  let bounces := (variantSessions.filter (fun s => decide (s.metrics.timeOnPage < 5000))).length
  let exitReasonCounts := countsInOrder
    (((variantSessions.filter (fun s => jsTruthyStr s.exitReason)).filterMap
      (fun s => s.exitReason)))
  let triggerCounts := countsInOrder
    (((variantSessions.filter (fun s => jsTruthyStr s.conversionTrigger)).filterMap
      (fun s => s.conversionTrigger)))
  { variantId := variantId
    sessions := variantSessions.length
    conversions := conversions
    conversionRate := (conversions : ℚ) / n * 100
    avgTimeOnPage := totalTime / n
    avgScrollDepth := totalScroll / n
    avgClicks := totalClicks / n
    bounceRate := (bounces : ℚ) / n * 100
    topExitReasons :=
      ((sortByDesc (fun p => (p.2 : ℚ)) exitReasonCounts).take 5).map
        (fun p => { reason := p.1, count := p.2 })
    topConversionTriggers :=
      ((sortByDesc (fun p => (p.2 : ℚ)) triggerCounts).take 5).map
        (fun p => { trigger := p.1, count := p.2 })
    engagementScore := calculateEngagementScore variantSessions }

/-- calculateConfidence from swarm-runner.ts. -/
def calculateConfidence (a b : VariantResult) : ℚ :=
  let totalSamples : ℚ := (a.sessions : ℚ) + (b.sessions : ℚ)
  let effectSize := |a.conversionRate - b.conversionRate|
  let sampleFactor := min 1 (totalSamples / 100)
  let effectFactor := min 1 (effectSize / 20)
  let rawConfidence := 50 + sampleFactor * 25 + effectFactor * 25
  min 99 ((jsRound rawConfidence : ℤ) : ℚ)

/-- Output triple of determineWinner. -/
structure WinnerInfo where
  winner : Option String
  confidence : ℚ
  isSignificant : Bool
deriving DecidableEq, Repr

/-- One step of the best-lift loop inside the control branch of
determineWinner: skip the control, skip ids without a result, keep the
strictly larger lift. -/
def bestLiftStep (results : List (String × VariantResult)) (controlRate : ℚ)
    (acc : Option VariantResult × ℚ) (v : ExperimentVariant) : Option VariantResult × ℚ :=
  if v.isControl then acc
  else
    match jsGet results v.id with
    | none => acc
    | some r =>
      let lift := r.conversionRate - controlRate
      if lift > acc.2 then (some r, lift) else acc

/-- The best-lift fold inside the control branch of determineWinner. -/
def bestLiftFold (results : List (String × VariantResult)) (controlRate : ℚ)
    (variants : List ExperimentVariant) : Option VariantResult × ℚ :=
  variants.foldl (bestLiftStep results controlRate) (none, 0)

/-- The no-control branch of determineWinner: rank by conversion rate
and compare the best against the runner-up. -/
def determineWinnerNoControl (results : List (String × VariantResult)) : WinnerInfo :=
  match sortByDesc (fun r => r.conversionRate) (results.map (fun p => p.2)) with
  | [] => { winner := none, confidence := 0, isSignificant := false }
  | best :: rest =>
    match rest with
    | [] => { winner := some best.variantId, confidence := 50, isSignificant := false }
    | second :: _ =>
      if best.conversionRate = second.conversionRate then
        { winner := some best.variantId, confidence := 50, isSignificant := false }
      else
        let confidence := calculateConfidence best second
        { winner := some best.variantId, confidence := confidence
          isSignificant := decide (confidence ≥ 95) }

/-- The control branch of determineWinner: compare every non-control
variant against the control by lift. -/
def determineWinnerWithControl (results : List (String × VariantResult))
    (variants : List ExperimentVariant) (control : ExperimentVariant) : WinnerInfo :=
  match jsGet results control.id with
  | none => { winner := none, confidence := 0, isSignificant := false }
  | some controlResult =>
    let best := bestLiftFold results controlResult.conversionRate variants
    match best.1 with
    | none => { winner := some control.id, confidence := 50, isSignificant := false }
    | some bestVariant =>
      if best.2 ≤ 0 then
        { winner := some control.id, confidence := 50, isSignificant := false }
      else
        let confidence := calculateConfidence bestVariant controlResult
        { winner := some bestVariant.variantId, confidence := confidence
          isSignificant := decide (confidence ≥ 95) }

/-- determineWinner from swarm-runner.ts. The results argument is the
entry list of the variantResults record in insertion order, so that
Object.values enumerates the second components in order. -/
def determineWinner (results : List (String × VariantResult))
    (variants : List ExperimentVariant) : WinnerInfo :=
  match variants.find? (fun v => v.isControl) with
  | none => determineWinnerNoControl results
  | some control => determineWinnerWithControl results variants control

/-- The relative-lift condition of the first insight rule,
((best - worst) / worst) * 100 > 10, with JavaScript division-by-zero
semantics made explicit: when worst = 0 the quotient is Infinity for
best > 0 (condition holds) and NaN for best = 0 (condition fails). -/
def jsLiftGt10 (best worst : ℚ) : Bool :=
  if worst = 0 then decide (best > 0)
  else decide ((best - worst) / worst * 100 > 10)

/-- The interpolated lift figure of the first insight rule, with the
JavaScript rendering of an infinite quotient. -/
def jsLiftStr (best worst : ℚ) : String :=
  if worst = 0 then (if best > 0 then "Infinity" else "NaN")
  else fmt0 ((best - worst) / worst * 100)

/-- generateInsights from swarm-runner.ts. The average-based comparisons
are guarded by non-emptiness of the result list because in JavaScript an
empty list makes the average NaN and every comparison with NaN false. -/
def generateInsights (results : List (String × VariantResult))
    (_variants : List ExperimentVariant) (sessions : List AgentSession) : List String :=
  let values := results.map (fun p => p.2)
  let sortedByConversion := sortByDesc (fun r => r.conversionRate) values
  let ins1 : List String :=
    if 2 ≤ sortedByConversion.length then
      match sortedByConversion.head?, sortedByConversion.getLast? with
      | some best, some worst =>
        if jsLiftGt10 best.conversionRate worst.conversionRate then
          [best.variantId ++ " outperformed " ++ worst.variantId ++ " by " ++
            jsLiftStr best.conversionRate worst.conversionRate ++ "% in conversion rate"]
        else []
      | _, _ => []
    else []
  let avgEngagement := sumBy (fun r => (r.engagementScore : ℚ)) values / values.length
  let ins2 : List String :=
    if values.length ≠ 0 ∧ avgEngagement < 40 then
      ["Overall engagement is low - users may be confused or uninterested"]
    else if values.length ≠ 0 ∧ avgEngagement > 70 then
      ["High engagement across variants - users are interested in the content"]
    else []
  let ins3 : List String :=
    match values.find? (fun r => decide (r.bounceRate > 50)) with
    | some highBounce =>
      [highBounce.variantId ++ " has high bounce rate (" ++ fmt0 highBounce.bounceRate ++
        "%) - first impression may need work"]
    | none => []
  let frustratedSessions := sessions.filter (fun s => s.impression == some .negative)
  let ins4 : List String :=
    if (frustratedSessions.length : ℚ) > (sessions.length : ℚ) * (3 / 10) then
      let commonReasons :=
        (((frustratedSessions.filter (fun s => jsTruthyStr s.exitReason)).filterMap
          (fun s => s.exitReason)).take 3)
      ["Many users left frustrated. Common reasons: " ++ String.intercalate ", " commonReasons]
    else []
  ins1 ++ ins2 ++ ins3 ++ ins4

/-- generateRecommendations from swarm-runner.ts, with the same
NaN-comparison guard for the average over an empty result list. -/
def generateRecommendations (results : List (String × VariantResult))
    (winner : Option String) (isSignificant : Bool) : List String :=
  let values := results.map (fun p => p.2)
  let rec1 : List String :=
    match winner, isSignificant with
    | some w, true => ["Implement " ++ w ++ " - it shows statistically significant improvement"]
    | some w, false =>
      [w ++ " looks promising but more data needed for confidence. Run longer or with more sessions."]
    | none, _ => ["No clear winner - consider testing more dramatic variations"]
  let avgConversion := sumBy (fun r => r.conversionRate) values / values.length
  let rec2 : List String :=
    if values.length ≠ 0 ∧ avgConversion < 10 then
      ["Low conversion across all variants - the fundamental value proposition may need rethinking"]
    else []
  rec1 ++ rec2

/-- analyzeResults from swarm-runner.ts. The variantResults record is
built by one assignment per element of the variants list; entry order is
the variants order (the code upstream gives variants distinct ids, and
every theorem needing distinctness assumes it explicitly). -/
def buildVariantResults (sessions : List AgentSession)
    (variants : List ExperimentVariant) : List (String × VariantResult) :=
  variants.map (fun variant =>
    let variantSessions := sessions.filter (fun s => s.variantId == variant.id)
    (variant.id,
      if variantSessions.length = 0 then createEmptyVariantResult variant.id
      else mkVariantResult variant.id variantSessions))

/-- analyzeResults from swarm-runner.ts, assembled from the pieces
above. -/
def analyzeResults (experimentId : String) (sessions : List AgentSession)
    (variants : List ExperimentVariant) : ExperimentResults :=
  let variantResults := buildVariantResults sessions variants
  let w := determineWinner variantResults variants
  { experimentId := experimentId
    sessions := sessions
    variantResults := variantResults
    winner := w.winner
    confidence := w.confidence
    isSignificant := w.isSignificant
    insights := generateInsights variantResults variants sessions
    recommendations := generateRecommendations variantResults w.winner w.isSignificant }

/-- createFailedSession from swarm-runner.ts. The three Date.now() calls
in the source body are modelled by one clock reading. -/
def createFailedSession (variantId : String) (persona : Option Persona)
    (url : String) (error : JsError) (now : ℚ) : AgentSession where
  id := "failed_" ++ fmt0 now
  persona := persona
  variantId := variantId
  url := url
  actions := []
  metrics :=
    { timeOnPage := 0, scrollDepth := 0, scrollDepthPercent := 0, clickCount := 0
      hoverCount := 0, readTimeMs := 0, hesitationCount := 0, rageClicks := 0
      elementsEngaged := [], loadTimeMs := 0 }
  converted := false
  conversionTrigger := none
  exitReason := some ("Error: " ++ errMsgOf error)
  impression := some .negative
  feedback := none
  startedAt := now
  endedAt := now
  errors := some [errMsgOf error]

/-- The argument record of BrowserAgent.run, from types.ts
(AgentRunConfig). -/
structure AgentRunConfig where
  url : String
  persona : Option Persona
  variantId : String
  changes : Option Changes
  conversionGoal : ConversionGoal
  maxDurationSec : Option ℚ
deriving DecidableEq, Repr

/-- The session-executor boundary: one BrowserAgent.run call, which either
returns a complete session record or throws. -/
abbrev SessionExecutor := AgentRunConfig → Except JsError AgentSession

/-- One work item of the session queue built by runExperiment. -/
structure QueueItem where
  variant : ExperimentVariant
  persona : Option Persona
deriving DecidableEq, Repr

/-- The queue construction loop of runExperiment: for each variant,
sessionsPerVariant items with personas assigned by index modulo the
persona-list length (undefined, that is none, when that list is empty,
since personas[i % 0] indexes with NaN). -/
def buildSessionQueue (variants : List ExperimentVariant) (personas : List Persona)
    (sessionsPerVariant : ℤ) : List QueueItem :=
  variants.flatMap (fun variant =>
    (List.range sessionsPerVariant.toNat).map (fun i =>
      { variant := variant, persona := personas.get? (i % personas.length) }))

/-- The in-place position swap [a[i], a[j]] = [a[j], a[i]] on a list;
out-of-range indices never occur in the shuffle below. -/
def swapIdx (l : List α) (i j : ℕ) : List α :=
  match l.get? i, l.get? j with
  | some a, some b => (l.set i b).set j a
  | _, _ => l

/-- The loop of shuffleArray, iterating the swap for indices k, ..., 1;
rand m is the Math.floor(Math.random() * (m + 1)) draw at index m,
reduced modulo m + 1 to reflect its range. -/
def shuffleAux (rand : ℕ → ℕ) : ℕ → List α → List α
  | 0, l => l
  | k + 1, l => shuffleAux rand k (swapIdx l (k + 1) (rand (k + 1) % (k + 2)))

/-- shuffleArray from swarm-runner.ts: a Fisher-Yates shuffle driven by
the random draws rand. -/
def shuffleArray (rand : ℕ → ℕ) (l : List α) : List α :=
  shuffleAux rand (l.length - 1) l

/-- The batch slicing for (let i = 0; i < queue.length; i += maxConcurrent)
... queue.slice(i, i + maxConcurrent). The constructor guarantees a
positive maxConcurrent; the zero case is given a total value anyway. -/
def chunkListAux (m : ℕ) : ℕ → List α → List (List α)
  | 0, _ => []
  | _ + 1, [] => []
  | fuel + 1, x :: xs =>
    if m = 0 then [x :: xs]
    else (x :: xs).take m :: chunkListAux m fuel ((x :: xs).drop m)

/-- The batch slices, with the list length as a structurally decreasing
fuel: each slicing step removes at least one element, so the fuel always
suffices and the fuel-free specification below holds. -/
def chunkList (m : ℕ) (l : List α) : List (List α) := chunkListAux m l.length l

/-- The constructor argument of SwarmRunner (API keys configure the
browser agent, which is behind the executor boundary). -/
structure RunnerConfig where
  maxConcurrent : Option ℕ
  delayBetweenSessions : Option ℚ
deriving DecidableEq, Repr

/-- The SwarmRunner instance state: the agent built in the constructor
(the executor boundary) and the two numeric fields. -/
structure SwarmRunner where
  agent : SessionExecutor
  maxConcurrent : ℕ
  delayBetweenSessions : ℚ

/-- The SwarmRunner constructor: maxConcurrent = config?.maxConcurrent || 3
and delayBetweenSessions = config?.delayBetweenSessions || 2000. -/
def SwarmRunner.create (agent : SessionExecutor) (config : Option RunnerConfig) :
    SwarmRunner where
  agent := agent
  maxConcurrent := jsOrNat (config.bind (fun c => c.maxConcurrent)) 3
  delayBetweenSessions := jsOrQ (config.bind (fun c => c.delayBetweenSessions)) 2000

/-- Ambient-effect oracles of one runExperiment call: the Math.random
draws of the shuffle, the Date.now() readings taken on the failure path of
the i-th queue slot, and the Date.now() readings clock k taken after the
k-th completed session (clock 0 is the start time). -/
structure RunOracles where
  rand : ℕ → ℕ
  failClock : ℕ → ℚ
  clock : ℕ → ℚ

/-- The executor call arguments built for one queue item inside the batch
map of runExperiment. -/
def slotRunConfig (config : ExperimentConfig) (item : QueueItem) : AgentRunConfig where
  url := config.url
  persona := item.persona
  variantId := item.variant.id
  changes := some { css := item.variant.css, js := item.variant.js }
  conversionGoal := config.conversionGoal
  maxDurationSec := some 60

/-- One queue slot of runExperiment: the executor call with its
try/catch, indexed by the queue position i for the failure-path clock. -/
def runSessionSlot (runner : SwarmRunner) (config : ExperimentConfig)
    (oracles : RunOracles) (i : ℕ) (item : QueueItem) : AgentSession :=
  match runner.agent (slotRunConfig config item) with
  | .ok session => session
  | .error e =>
      createFailedSession item.variant.id item.persona config.url e (oracles.failClock i)

/-- The shuffled session queue of one runExperiment call. -/
def shuffledQueue (config : ExperimentConfig) (oracles : RunOracles) : List QueueItem :=
  shuffleArray oracles.rand
    (buildSessionQueue config.variants config.personas config.sessionsPerVariant)

/-- The batch partition of the (position-indexed) shuffled queue:
consecutive slices of size maxConcurrent. -/
def batchPartition (runner : SwarmRunner) (config : ExperimentConfig)
    (oracles : RunOracles) : List (List (ℕ × QueueItem)) :=
  chunkList runner.maxConcurrent (shuffledQueue config oracles).enum

/-- The completed-session list of one runExperiment call, in completion
order: each batch is awaited in full and its results are appended in
batch order, so the list is the concatenation of the mapped batches. -/
def runSessions (runner : SwarmRunner) (config : ExperimentConfig)
    (oracles : RunOracles) : List AgentSession :=
  ((batchPartition runner config oracles).map (fun batch =>
    batch.map (fun p => runSessionSlot runner config oracles p.1 p.2))).flatten

/-- The status snapshot passed to the progress callback after the k-th
completed session (k ≥ 1), with the post-update per-variant counters. -/
def statusAfter (experimentId : String) (totalSessions : ℕ) (clock : ℕ → ℚ)
    (k : ℕ) (sessionsByVariant : List (String × Option ℚ)) : ExperimentStatus where
  experimentId := experimentId
  state := .running
  progress := (k : ℚ) / (totalSessions : ℚ) * 100
  completedSessions := k
  totalSessions := totalSessions
  sessionsByVariant := sessionsByVariant
  error := none
  estimatedTimeRemaining :=
    some ⌈((totalSessions : ℚ) - (k : ℚ)) * ((clock k - clock 0) / (k : ℚ)) / 1000⌉

/-- The per-session progress updates: one snapshot per completed session,
threading the completed count and the per-variant counters. Returns the
emitted snapshots and the final counters. -/
def runningStatuses (experimentId : String) (totalSessions : ℕ) (clock : ℕ → ℚ) :
    List AgentSession → ℕ → List (String × Option ℚ) →
    List ExperimentStatus × List (String × Option ℚ)
  | [], _, sbv => ([], sbv)
  | s :: rest, k, sbv =>
      let sbv2 := jsIncr sbv s.variantId
      let st := statusAfter experimentId totalSessions clock (k + 1) sbv2
      let tail := runningStatuses experimentId totalSessions clock rest (k + 1) sbv2
      (st :: tail.1, tail.2)

/-- The observable outcome of one runExperiment call: the returned result
and the sequence of status snapshots passed to the progress callback. -/
structure RunOutcome where
  result : ExperimentResults
  statusTrace : List ExperimentStatus

/-- runExperiment from swarm-runner.ts, as a function of the runner
state, the configuration and the ambient-effect oracles. The inter-batch
delay only suspends; it changes no observable data and is not modelled. -/
def runExperiment (runner : SwarmRunner) (config : ExperimentConfig)
    (oracles : RunOracles) : RunOutcome :=
  let totalSessions := (shuffledQueue config oracles).length
  let sbv0 := config.variants.foldl (fun m v => jsSet m v.id (some 0)) []
  let status0 : ExperimentStatus :=
    { experimentId := config.id, state := .running, progress := 0
      completedSessions := 0, totalSessions := totalSessions
      sessionsByVariant := sbv0, error := none, estimatedTimeRemaining := none }
  let sessions := runSessions runner config oracles
  let updates := runningStatuses config.id totalSessions oracles.clock sessions 0 sbv0
  let lastRunning := (updates.1.getLast?).getD status0
  let analyzingStatus := { lastRunning with state := .analyzing }
  let results := analyzeResults config.id sessions config.variants
  let completedStatus := { analyzingStatus with state := .completed, progress := 100 }
  { result := results
    statusTrace := status0 :: updates.1 ++ [analyzingStatus, completedStatus] }

/-- The fields of a VariantResult other than the two top-N ranking lists,
used to state which part of the aggregation is order-independent. -/
def variantNumericView (r : VariantResult) : String × ℕ × ℕ × ℚ × ℚ × ℚ × ℚ × ℚ × ℤ :=
  (r.variantId, r.sessions, r.conversions, r.conversionRate, r.avgTimeOnPage,
    r.avgScrollDepth, r.avgClicks, r.bounceRate, r.engagementScore)

/-- The fields of a VariantResult that determineWinner reads. -/
def winnerView (r : VariantResult) : String × ℕ × ℚ :=
  (r.variantId, r.sessions, r.conversionRate)

/-! Concrete fixtures used by scenario conjuncts, witnesses and
counterexamples. -/

/-- All-zero metrics for fixture sessions. -/
def zeroMetrics : SessionMetrics where
  timeOnPage := 0
  scrollDepth := 0
  scrollDepthPercent := 0
  clickCount := 0
  hoverCount := 0
  readTimeMs := 0
  hesitationCount := 0
  rageClicks := 0
  elementsEngaged := []
  loadTimeMs := 0

/-- A minimal session record for a given variant and conversion outcome. -/
def testSession (vid : String) (conv : Bool) : AgentSession where
  id := "s"
  persona := none
  variantId := vid
  url := "https://example.test"
  actions := []
  metrics := zeroMetrics
  converted := conv
  conversionTrigger := none
  exitReason := none
  impression := none
  feedback := none
  startedAt := 0
  endedAt := 0
  errors := none

/-- The control variant of the spec scenarios. -/
def controlVariant : ExperimentVariant where
  id := "control"
  name := "Control"
  isControl := true
  css := none
  js := none

/-- The treatment variant of the spec scenarios. -/
def variantA : ExperimentVariant where
  id := "variant_a"
  name := "Variant A"
  isControl := false
  css := none
  js := none

/-- Clear-winner scenario data: control 10 sessions 1 conversion,
variant_a 10 sessions 5 conversions. -/
def clearWinnerSessions : List AgentSession :=
  List.replicate 1 (testSession "control" true) ++
  List.replicate 9 (testSession "control" false) ++
  List.replicate 5 (testSession "variant_a" true) ++
  List.replicate 5 (testSession "variant_a" false)

/-- No-lift scenario data: control and variant_a both 10 sessions
2 conversions. -/
def noLiftSessions : List AgentSession :=
  List.replicate 2 (testSession "control" true) ++
  List.replicate 8 (testSession "control" false) ++
  List.replicate 2 (testSession "variant_a" true) ++
  List.replicate 8 (testSession "variant_a" false)

/-- A non-control variant with id v. -/
def plainVariant : ExperimentVariant where
  id := "v"
  name := "V"
  isControl := false
  css := none
  js := none

/-- A session of variant v exiting for reason a. -/
def sessionReasonA : AgentSession :=
  { testSession "v" false with exitReason := some "reason a" }

/-- A session of variant v exiting for reason b. -/
def sessionReasonB : AgentSession :=
  { testSession "v" false with exitReason := some "reason b" }

/-- A session with a negative impression and an exit reason. -/
def negativeSession : AgentSession :=
  { testSession "v" false with
      impression := some .negative, exitReason := some "Checkout broken" }

/-- Fixture conversion goal. -/
def testGoal : ConversionGoal where
  type := .click
  target := "cta"
  description := "click the call to action"

/-- Fixture experiment configuration: two variants, two personas, two
sessions per variant. -/
def testConfig : ExperimentConfig where
  id := "exp"
  name := "Exp"
  url := "https://example.test"
  variants := [controlVariant, variantA]
  conversionGoal := testGoal
  personas := [{ id := "p1" }, { id := "p2" }]
  sessionsPerVariant := 2
  maxConcurrent := none

/-- Fixture configuration with an empty persona list. -/
def noPersonaConfig : ExperimentConfig :=
  { testConfig with variants := [plainVariant], personas := [], sessionsPerVariant := 1 }

/-- An executor that always throws. -/
def failingExecutor : SessionExecutor := fun _ => .error (some "boom")

/-- An executor that always succeeds and echoes the requested variant id,
as BrowserAgent.run does. -/
def okExecutor : SessionExecutor := fun c =>
  .ok { testSession c.variantId false with url := c.url, persona := c.persona }

/-- Fixture oracles: deterministic draws and clocks. -/
def testOracles : RunOracles where
  rand := fun _ => 0
  failClock := fun _ => 5
  clock := fun _ => 7

/-- A runner over the always-failing executor, default construction. -/
def failRunner : SwarmRunner := SwarmRunner.create failingExecutor none

/-- A runner over the echoing executor, default construction. -/
def okRunner : SwarmRunner := SwarmRunner.create okExecutor none

/-! Helper lemmas about the scheduler infrastructure. -/

theorem swapIdx_perm [DecidableEq α] (l : List α) (i j : ℕ) :
    (swapIdx l i j).Perm l := by
  unfold swapIdx
  cases hi : l.get? i with
  | none => simp
  | some a =>
    cases hj : l.get? j with
    | none => simp
    | some b =>
      simp only []
      have hil : i < l.length := by
        by_contra h
        rw [List.get?_eq_none.mpr (by omega)] at hi
        exact Option.noConfusion hi
      have hjl : j < l.length := by
        by_contra h
        rw [List.get?_eq_none.mpr (by omega)] at hj
        exact Option.noConfusion hj
      have ha : l[i] = a := by
        have := List.get?_eq_getElem? l i
        rw [this, List.getElem?_eq_getElem hil] at hi
        exact Option.some.inj hi
      have hb : l[j] = b := by
        have := List.get?_eq_getElem? l j
        rw [this, List.getElem?_eq_getElem hjl] at hj
        exact Option.some.inj hj
      rw [List.perm_iff_count]
      intro x
      have hjl2 : j < (l.set i b).length := by rw [List.length_set]; exact hjl
      rw [List.count_set a x (l.set i b) j hjl2]
      rw [List.count_set b x l i hil]
      have hset : (l.set i b)[j] = l[j] := by
        rw [List.getElem_set]
        split <;> simp [hb]
      rw [hset, ha, hb]
      have hmemi : l[i] ∈ l := List.getElem_mem hil
      have hmemj : l[j] ∈ l := List.getElem_mem hjl
      have hca : a = x → 1 ≤ l.count x := by
        intro h; rw [← h, ← ha]; exact List.count_pos_iff.mpr hmemi
      have hcb : b = x → 1 ≤ l.count x := by
        intro h; rw [← h, ← hb]; exact List.count_pos_iff.mpr hmemj
      simp only [beq_iff_eq]
      split_ifs with h1 h2 h3
      · have := hca h1; omega
      · have := hca h1; omega
      · have := hcb h3; omega
      · omega

theorem shuffleAux_perm [DecidableEq α] (rand : ℕ → ℕ) (k : ℕ) (l : List α) :
    (shuffleAux rand k l).Perm l := by
  induction k generalizing l with
  | zero => simp [shuffleAux]
  | succ k ih =>
    exact (ih _).trans (swapIdx_perm l (k + 1) (rand (k + 1) % (k + 2)))

theorem shuffleArray_perm [DecidableEq α] (rand : ℕ → ℕ) (l : List α) :
    (shuffleArray rand l).Perm l :=
  shuffleAux_perm rand (l.length - 1) l

theorem chunkListAux_flatten (m : ℕ) :
    ∀ (fuel : ℕ) (l : List α), l.length ≤ fuel → (chunkListAux m fuel l).flatten = l := by
  intro fuel
  induction fuel with
  | zero =>
    intro l hl
    have hnil : l = [] := List.eq_nil_of_length_eq_zero (Nat.le_zero.mp hl)
    subst hnil
    simp [chunkListAux]
  | succ n ih =>
    intro l hl
    match l with
    | [] => simp [chunkListAux]
    | x :: xs =>
      rw [chunkListAux]
      split
      · simp
      · rename_i hm
        have hlen : ((x :: xs).drop m).length ≤ n := by
          simp only [List.length_drop, List.length_cons]
          simp only [List.length_cons] at hl
          omega
        rw [List.flatten_cons, ih _ hlen, List.take_append_drop]

theorem chunkList_flatten (m : ℕ) (l : List α) : (chunkList m l).flatten = l :=
  chunkListAux_flatten m l.length l le_rfl

theorem runSessions_eq_map (runner : SwarmRunner) (config : ExperimentConfig)
    (oracles : RunOracles) :
    runSessions runner config oracles =
      (shuffledQueue config oracles).enum.map
        (fun p => runSessionSlot runner config oracles p.1 p.2) := by
  unfold runSessions batchPartition
  rw [← List.map_flatten, chunkList_flatten]

/-! Projection lemmas unfolding the record assembly of analyzeResults and
runExperiment. -/

theorem analyzeResults_variantResults (eid : String) (sessions : List AgentSession)
    (variants : List ExperimentVariant) :
    (analyzeResults eid sessions variants).variantResults =
      buildVariantResults sessions variants := rfl

theorem analyzeResults_winner (eid : String) (sessions : List AgentSession)
    (variants : List ExperimentVariant) :
    (analyzeResults eid sessions variants).winner =
      (determineWinner (buildVariantResults sessions variants) variants).winner := rfl

theorem analyzeResults_confidence (eid : String) (sessions : List AgentSession)
    (variants : List ExperimentVariant) :
    (analyzeResults eid sessions variants).confidence =
      (determineWinner (buildVariantResults sessions variants) variants).confidence := rfl

theorem analyzeResults_isSignificant (eid : String) (sessions : List AgentSession)
    (variants : List ExperimentVariant) :
    (analyzeResults eid sessions variants).isSignificant =
      (determineWinner (buildVariantResults sessions variants) variants).isSignificant := rfl

theorem analyzeResults_sessions (eid : String) (sessions : List AgentSession)
    (variants : List ExperimentVariant) :
    (analyzeResults eid sessions variants).sessions = sessions := rfl

theorem runExperiment_result (runner : SwarmRunner) (config : ExperimentConfig)
    (oracles : RunOracles) :
    (runExperiment runner config oracles).result =
      analyzeResults config.id (runSessions runner config oracles) config.variants := rfl

/-! Evaluation lemmas for the fixture scenarios. -/

theorem mkVariantResult_replicate (vid : String) (a b : ℕ) :
    (mkVariantResult vid (List.replicate a (testSession vid true) ++
        List.replicate b (testSession vid false))).variantId = vid ∧
    (mkVariantResult vid (List.replicate a (testSession vid true) ++
        List.replicate b (testSession vid false))).sessions = a + b ∧
    (mkVariantResult vid (List.replicate a (testSession vid true) ++
        List.replicate b (testSession vid false))).conversionRate =
      (a : ℚ) / ((a : ℚ) + (b : ℚ)) * 100 := by
  refine ⟨rfl, ?_, ?_⟩
  · simp [mkVariantResult]
  · simp [mkVariantResult, List.filter_append, List.filter_replicate, testSession]

theorem clearWinner_build :
    buildVariantResults clearWinnerSessions [controlVariant, variantA] =
      [("control", mkVariantResult "control" (List.replicate 1 (testSession "control" true) ++
          List.replicate 9 (testSession "control" false))),
       ("variant_a", mkVariantResult "variant_a" (List.replicate 5 (testSession "variant_a" true) ++
          List.replicate 5 (testSession "variant_a" false)))] := by
  have hfc : clearWinnerSessions.filter (fun s => s.variantId == "control") =
      List.replicate 1 (testSession "control" true) ++
        List.replicate 9 (testSession "control" false) := by
    simp [clearWinnerSessions, List.filter_append, List.filter_replicate, testSession]
  have hfa : clearWinnerSessions.filter (fun s => s.variantId == "variant_a") =
      List.replicate 5 (testSession "variant_a" true) ++
        List.replicate 5 (testSession "variant_a" false) := by
    simp [clearWinnerSessions, List.filter_append, List.filter_replicate, testSession]
  simp only [buildVariantResults, List.map, controlVariant, variantA]
  rw [hfc, hfa]
  simp

theorem clearWinner_determineWinner :
    determineWinner (buildVariantResults clearWinnerSessions [controlVariant, variantA])
      [controlVariant, variantA] =
      { winner := some "variant_a", confidence := 80, isSignificant := false } := by
  rw [clearWinner_build]
  have hcr1 : (mkVariantResult "control" (List.replicate 1 (testSession "control" true) ++
      List.replicate 9 (testSession "control" false))).conversionRate = 10 := by
    rw [(mkVariantResult_replicate "control" 1 9).2.2]; norm_num
  have hcr2 : (mkVariantResult "variant_a" (List.replicate 5 (testSession "variant_a" true) ++
      List.replicate 5 (testSession "variant_a" false))).conversionRate = 50 := by
    rw [(mkVariantResult_replicate "variant_a" 5 5).2.2]; norm_num
  have hs1 : (mkVariantResult "control" (List.replicate 1 (testSession "control" true) ++
      List.replicate 9 (testSession "control" false))).sessions = 10 :=
    (mkVariantResult_replicate "control" 1 9).2.1
  have hs2 : (mkVariantResult "variant_a" (List.replicate 5 (testSession "variant_a" true) ++
      List.replicate 5 (testSession "variant_a" false))).sessions = 10 :=
    (mkVariantResult_replicate "variant_a" 5 5).2.1
  have hid2 : (mkVariantResult "variant_a" (List.replicate 5 (testSession "variant_a" true) ++
      List.replicate 5 (testSession "variant_a" false))).variantId = "variant_a" := rfl
  have hfold : bestLiftFold
      [("control", mkVariantResult "control" (List.replicate 1 (testSession "control" true) ++
          List.replicate 9 (testSession "control" false))),
       ("variant_a", mkVariantResult "variant_a" (List.replicate 5 (testSession "variant_a" true) ++
          List.replicate 5 (testSession "variant_a" false)))]
      (mkVariantResult "control" (List.replicate 1 (testSession "control" true) ++
          List.replicate 9 (testSession "control" false))).conversionRate
      [controlVariant, variantA] =
      (some (mkVariantResult "variant_a" (List.replicate 5 (testSession "variant_a" true) ++
          List.replicate 5 (testSession "variant_a" false))), 40) := by
    simp only [bestLiftFold, List.foldl, bestLiftStep,
      show controlVariant.isControl = true from rfl,
      show variantA.isControl = false from rfl,
      show variantA.id = "variant_a" from rfl,
      show jsGet
        [("control", mkVariantResult "control" (List.replicate 1 (testSession "control" true) ++
            List.replicate 9 (testSession "control" false))),
         ("variant_a", mkVariantResult "variant_a" (List.replicate 5 (testSession "variant_a" true) ++
            List.replicate 5 (testSession "variant_a" false)))] "variant_a" =
        some (mkVariantResult "variant_a" (List.replicate 5 (testSession "variant_a" true) ++
            List.replicate 5 (testSession "variant_a" false))) from by
        simp [jsGet, List.find?],
      if_true, if_false]
    rw [hcr1, hcr2]
    norm_num
  have hconf : calculateConfidence
      (mkVariantResult "variant_a" (List.replicate 5 (testSession "variant_a" true) ++
          List.replicate 5 (testSession "variant_a" false)))
      (mkVariantResult "control" (List.replicate 1 (testSession "control" true) ++
          List.replicate 9 (testSession "control" false))) = 80 := by
    unfold calculateConfidence
    rw [hs1, hs2, hcr1, hcr2]
    norm_num [min_def, jsRound]
  unfold determineWinner
  rw [show List.find? (fun v => v.isControl) [controlVariant, variantA] =
      some controlVariant from by simp [List.find?, controlVariant]]
  unfold determineWinnerWithControl
  simp only [show controlVariant.id = "control" from rfl,
    show jsGet
      [("control", mkVariantResult "control" (List.replicate 1 (testSession "control" true) ++
          List.replicate 9 (testSession "control" false))),
       ("variant_a", mkVariantResult "variant_a" (List.replicate 5 (testSession "variant_a" true) ++
          List.replicate 5 (testSession "variant_a" false)))] "control" =
      some (mkVariantResult "control" (List.replicate 1 (testSession "control" true) ++
          List.replicate 9 (testSession "control" false))) from by
      simp [jsGet, List.find?]]
  rw [hfold]
  simp only [hconf, hid2]
  norm_num

/-- Claim C3: for every pair of compared VariantResults the confidence of
calculateConfidence equals min(99, round(50 + 25 min(1, samples / 100) +
25 min(1, rateDiff / 20))) and lies in the interval from 50 to 99,
determineWinner always reports isSignificant exactly when the reported
confidence is at least 95, and on the clear-winner scenario (control 10
sessions 1 conversion, variant_a 10 sessions 5 conversions) the winner is
variant_a with confidence 80 and isSignificant false. -/
theorem calculateConfidence_spec :
    (∀ a b : VariantResult,
      calculateConfidence a b =
        min 99 ((jsRound (50 + 25 * min 1 (((a.sessions : ℚ) + (b.sessions : ℚ)) / 100) +
          25 * min 1 (|a.conversionRate - b.conversionRate| / 20)) : ℤ) : ℚ) ∧
      50 ≤ calculateConfidence a b ∧ calculateConfidence a b ≤ 99) ∧
    (∀ (results : List (String × VariantResult)) (variants : List ExperimentVariant),
      (determineWinner results variants).isSignificant =
        decide ((determineWinner results variants).confidence ≥ 95)) ∧
    ((analyzeResults "exp" clearWinnerSessions [controlVariant, variantA]).winner =
        some "variant_a" ∧
      (analyzeResults "exp" clearWinnerSessions [controlVariant, variantA]).confidence = 80 ∧
      (analyzeResults "exp" clearWinnerSessions [controlVariant, variantA]).isSignificant =
        false) := by
  have hbounds : ∀ a b : VariantResult,
      50 ≤ calculateConfidence a b ∧ calculateConfidence a b ≤ 99 := by
    intro a b
    have h1 : (0:ℚ) ≤ min 1 (((a.sessions : ℚ) + (b.sessions : ℚ)) / 100) :=
      le_min (by norm_num) (by positivity)
    have h2 : (0:ℚ) ≤ min 1 (|a.conversionRate - b.conversionRate| / 20) :=
      le_min (by norm_num) (by positivity)
    unfold calculateConfidence
    constructor
    · refine le_min (by norm_num) ?_
      have hz : (50:ℤ) ≤ jsRound (50 +
          min 1 (((a.sessions : ℚ) + (b.sessions : ℚ)) / 100) * 25 +
          min 1 (|a.conversionRate - b.conversionRate| / 20) * 25) := by
        rw [jsRound]
        refine Int.le_floor.mpr ?_
        push_cast
        nlinarith [h1, h2]
      exact_mod_cast hz
    · exact min_le_left _ _
  refine ⟨?_, ?_, ?_⟩
  · intro a b
    refine ⟨?_, hbounds a b⟩
    have harg : (50 + min 1 (((a.sessions : ℚ) + (b.sessions : ℚ)) / 100) * 25 +
        min 1 (|a.conversionRate - b.conversionRate| / 20) * 25) =
        (50 + 25 * min 1 (((a.sessions : ℚ) + (b.sessions : ℚ)) / 100) +
          25 * min 1 (|a.conversionRate - b.conversionRate| / 20)) := by ring
    unfold calculateConfidence
    simp only [harg]
  · have hnc : ∀ results : List (String × VariantResult),
        (determineWinnerNoControl results).isSignificant =
          decide ((determineWinnerNoControl results).confidence ≥ 95) := by
      intro results
      unfold determineWinnerNoControl
      split
      · rfl
      · split
        · rfl
        · split
          · rfl
          · rfl
    have hwc : ∀ (results : List (String × VariantResult))
        (variants : List ExperimentVariant) (control : ExperimentVariant),
        (determineWinnerWithControl results variants control).isSignificant =
          decide ((determineWinnerWithControl results variants control).confidence ≥ 95) := by
      intro results variants control
      unfold determineWinnerWithControl
      split
      · rfl
      · dsimp only
        split
        · rfl
        · split
          · rfl
          · rfl
    intro results variants
    unfold determineWinner
    split
    · exact hnc results
    · exact hwc results variants _
  · rw [analyzeResults_winner, analyzeResults_confidence, analyzeResults_isSignificant,
      clearWinner_determineWinner]
    norm_num

/-- Claim C8: a variant of the variants list with no matching session
records never makes aggregation throw; it is still present in the result
mapping, bound to the all-zero empty VariantResult. -/
theorem analyzeResults_emptyVariant (eid : String) (sessions : List AgentSession)
    (variants : List ExperimentVariant) (v : ExperimentVariant)
    (hv : v ∈ variants)
    (hempty : sessions.filter (fun s => s.variantId == v.id) = []) :
    (v.id, createEmptyVariantResult v.id) ∈
      (analyzeResults eid sessions variants).variantResults ∧
    createEmptyVariantResult v.id =
      { variantId := v.id, sessions := 0, conversions := 0, conversionRate := 0
        avgTimeOnPage := 0, avgScrollDepth := 0, avgClicks := 0, bounceRate := 0
        topExitReasons := [], topConversionTriggers := [], engagementScore := 0 } := by
  refine ⟨?_, rfl⟩
  rw [analyzeResults_variantResults]
  unfold buildVariantResults
  refine List.mem_map.mpr ⟨v, hv, ?_⟩
  simp only [hempty]
  rfl

/-- Witness for claim C8 at a concrete input: one session of a foreign
variant leaves variant v with zero sessions, and the mapping still binds
v to the empty result. -/
theorem analyzeResults_emptyVariant_witness :
    ("v", createEmptyVariantResult "v") ∈
      (analyzeResults "exp" [testSession "other" false] [plainVariant]).variantResults := by
  have h := analyzeResults_emptyVariant "exp" [testSession "other" false] [plainVariant]
    plainVariant (by simp) (by simp [testSession, plainVariant])
  exact h.1

theorem buildSessionQueue_length (variants : List ExperimentVariant)
    (personas : List Persona) (spv : ℤ) :
    (buildSessionQueue variants personas spv).length = variants.length * spv.toNat := by
  unfold buildSessionQueue
  induction variants with
  | nil => simp
  | cons v vs ih =>
    rw [List.flatMap_cons, List.length_append, List.length_map, List.length_range, ih,
      List.length_cons]
    ring

theorem shuffledQueue_length (config : ExperimentConfig) (oracles : RunOracles) :
    (shuffledQueue config oracles).length =
      config.variants.length * config.sessionsPerVariant.toNat := by
  unfold shuffledQueue
  rw [(shuffleArray_perm oracles.rand _).length_eq, buildSessionQueue_length]

theorem runSessions_length (runner : SwarmRunner) (config : ExperimentConfig)
    (oracles : RunOracles) :
    (runSessions runner config oracles).length = (shuffledQueue config oracles).length := by
  rw [runSessions_eq_map, List.length_map, List.enum_length]

theorem getLast_append_two (l : List α) (x y : α) :
    (l ++ [x, y]).getLast? = some y := by
  rw [show l ++ [x, y] = (l ++ [x]) ++ [y] by simp]
  exact List.getLast?_concat _

/-- Claim C5 (amended): runExperiment performs no configuration
validation. For every configuration, including empty variants, empty
personas, or non-positive sessionsPerVariant, it resolves normally: the
returned session list has exactly variants.length * max(0,
sessionsPerVariant) entries (one executor invocation per planned slot)
and the final status callback reports state completed with progress
100. -/
theorem runExperiment_noValidation (runner : SwarmRunner) (config : ExperimentConfig)
    (oracles : RunOracles) :
    (shuffledQueue config oracles).length =
      config.variants.length * config.sessionsPerVariant.toNat ∧
    (runExperiment runner config oracles).result.sessions.length =
      config.variants.length * config.sessionsPerVariant.toNat ∧
    ((runExperiment runner config oracles).statusTrace.getLast?.map
      (fun st => (st.state, st.progress))) = some (.completed, 100) := by
  refine ⟨shuffledQueue_length config oracles, ?_, ?_⟩
  · rw [runExperiment_result, analyzeResults_sessions, runSessions_length,
      shuffledQueue_length]
  · unfold runExperiment
    dsimp only
    rw [getLast_append_two]
    rfl

/-- Counterexample to claim C5 as stated: with an empty persona list and
one variant, runExperiment does not reject before any session is
scheduled; it invokes the executor for the one planned slot (producing a
synthesized failed record when the executor throws) and completes
normally. -/
theorem runExperiment_noValidation_cex :
    noPersonaConfig.personas = [] ∧
    (runExperiment failRunner noPersonaConfig testOracles).result.sessions.length = 1 ∧
    (runExperiment failRunner noPersonaConfig testOracles).result.sessions.map
      (fun s => (s.converted, s.persona, s.errors)) = [(false, none, some ["boom"])] ∧
    ((runExperiment failRunner noPersonaConfig testOracles).statusTrace.getLast?.map
      (fun st => st.state)) = some .completed := by
  refine ⟨rfl, rfl, ?_, rfl⟩
  rfl

/-- Claim C7 (amended): when strictly more than 30 percent of all
sessions have a negative impression, generateInsights emits the
frustration insight listing the exit reasons of the first up to three
negative sessions that carry a truthy exit reason, in session order and
possibly with repeated reasons (the code does not deduplicate). -/
theorem generateInsights_frustration (results : List (String × VariantResult))
    (variants : List ExperimentVariant) (sessions : List AgentSession)
    (hfrac : ((sessions.filter (fun s => s.impression == some .negative)).length : ℚ) >
      (sessions.length : ℚ) * (3 / 10)) :
    ("Many users left frustrated. Common reasons: " ++
      String.intercalate ", "
        ((((sessions.filter (fun s => s.impression == some .negative)).filter
          (fun s => jsTruthyStr s.exitReason)).filterMap (fun s => s.exitReason)).take 3)) ∈
      generateInsights results variants sessions := by
  unfold generateInsights
  dsimp only
  rw [if_pos hfrac]
  simp only [List.mem_append, List.mem_singleton]
  tauto

/-- Witness for the amended claim C7 at a concrete input. -/
theorem generateInsights_frustration_witness :
    ("Many users left frustrated. Common reasons: Checkout broken, Checkout broken" ∈
      generateInsights [] [] [negativeSession, negativeSession]) := by
  have h := generateInsights_frustration [] [] [negativeSession, negativeSession]
    (by norm_num [negativeSession, testSession])
  exact h

/-- Counterexample to claim C7 as stated: both negative sessions exit for
the same reason, yet the emitted insight lists the reason twice, so the
listed reasons are not distinct. -/
theorem generateInsights_frustration_cex :
    (((([negativeSession, negativeSession].filter
        (fun s => s.impression == some .negative)).filter
          (fun s => jsTruthyStr s.exitReason)).filterMap (fun s => s.exitReason)).take 3) =
      ["Checkout broken", "Checkout broken"] ∧
    ¬ (["Checkout broken", "Checkout broken"] : List String).Nodup ∧
    generateInsights [] [] [negativeSession, negativeSession] =
      ["Many users left frustrated. Common reasons: Checkout broken, Checkout broken"] := by
  refine ⟨rfl, by decide, ?_⟩
  unfold generateInsights
  dsimp only
  rw [if_pos (show ((([negativeSession, negativeSession].filter
      (fun s => s.impression == some .negative)).length : ℚ) >
      (([negativeSession, negativeSession] : List AgentSession).length : ℚ) * (3 / 10)) from by
    norm_num [negativeSession, testSession])]
  rfl

/-! Order-independence of the aggregation (claim C6). -/

theorem sumBy_perm (f : α → ℚ) {l₁ l₂ : List α} (h : l₁.Perm l₂) :
    sumBy f l₁ = sumBy f l₂ := (h.map f).sum_eq

theorem calculateEngagementScore_perm {l₁ l₂ : List AgentSession} (h : l₁.Perm l₂) :
    calculateEngagementScore l₁ = calculateEngagementScore l₂ := by
  unfold calculateEngagementScore
  rw [h.length_eq, sumBy_perm (fun s => s.metrics.timeOnPage) h,
    sumBy_perm (fun s => s.metrics.scrollDepthPercent) h,
    sumBy_perm (fun s => s.metrics.clickCount) h,
    (h.filter (fun s => s.impression == some .positive)).length_eq]

theorem mkVariantResult_perm (vid : String) {l₁ l₂ : List AgentSession} (h : l₁.Perm l₂) :
    variantNumericView (mkVariantResult vid l₁) = variantNumericView (mkVariantResult vid l₂) := by
  unfold variantNumericView mkVariantResult
  dsimp only
  rw [h.length_eq, (h.filter (fun s => s.converted)).length_eq,
    (h.filter (fun s => decide (s.metrics.timeOnPage < 5000))).length_eq,
    sumBy_perm (fun s => s.metrics.timeOnPage) h,
    sumBy_perm (fun s => s.metrics.scrollDepthPercent) h,
    sumBy_perm (fun s => s.metrics.clickCount) h,
    calculateEngagementScore_perm h]

theorem buildVariantResults_perm_numeric {s₁ s₂ : List AgentSession} (h : s₁.Perm s₂)
    (variants : List ExperimentVariant) :
    (buildVariantResults s₁ variants).map (fun p => (p.1, variantNumericView p.2)) =
      (buildVariantResults s₂ variants).map (fun p => (p.1, variantNumericView p.2)) := by
  unfold buildVariantResults
  rw [List.map_map, List.map_map]
  apply List.map_congr_left
  intro v _
  have hf : (s₁.filter (fun s => s.variantId == v.id)).Perm
      (s₂.filter (fun s => s.variantId == v.id)) := h.filter _
  dsimp only [Function.comp]
  rw [hf.length_eq]
  by_cases hz : (s₂.filter (fun s => s.variantId == v.id)).length = 0
  · rw [if_pos hz, if_pos hz]
  · rw [if_neg hz, if_neg hz]
    exact congrArg (fun x => (v.id, x)) (mkVariantResult_perm v.id hf)

theorem winnerView_map_of_numeric (l₁ l₂ : List (String × VariantResult))
    (h : l₁.map (fun p => (p.1, variantNumericView p.2)) =
      l₂.map (fun p => (p.1, variantNumericView p.2))) :
    l₁.map (fun p => (p.1, winnerView p.2)) = l₂.map (fun p => (p.1, winnerView p.2)) := by
  have hg : ∀ l : List (String × VariantResult),
      l.map (fun p => (p.1, winnerView p.2)) =
        (l.map (fun p => (p.1, variantNumericView p.2))).map
          (fun q => (q.1, q.2.1, q.2.2.1, q.2.2.2.2.1)) := by
    intro l
    rw [List.map_map]
    rfl
  rw [hg, hg, h]

theorem calculateConfidence_congr {a₁ a₂ b₁ b₂ : VariantResult}
    (ha : winnerView a₁ = winnerView a₂) (hb : winnerView b₁ = winnerView b₂) :
    calculateConfidence a₁ b₁ = calculateConfidence a₂ b₂ := by
  unfold winnerView at ha hb
  simp only [Prod.mk.injEq] at ha hb
  unfold calculateConfidence
  rw [ha.2.1, ha.2.2, hb.2.1, hb.2.2]

theorem insertDescBy_map (g : α → β) (key : α → ℚ) (k : β → ℚ)
    (hk : ∀ a, key a = k (g a)) (x : α) :
    ∀ l : List α, (insertDescBy key x l).map g = insertDescBy k (g x) (l.map g) := by
  intro l
  induction l with
  | nil => rfl
  | cons y ys ih =>
    unfold insertDescBy
    simp only [List.map_cons]
    rw [hk x, hk y]
    split
    · simp only [List.map_cons, ih]
    · rfl

theorem sortByDesc_map (g : α → β) (key : α → ℚ) (k : β → ℚ)
    (hk : ∀ a, key a = k (g a)) :
    ∀ l : List α, (sortByDesc key l).map g = sortByDesc k (l.map g) := by
  intro l
  induction l with
  | nil => rfl
  | cons x xs ih =>
    unfold sortByDesc
    simp only [List.foldr_cons, List.map_cons]
    rw [show List.foldr (insertDescBy key) [] xs = sortByDesc key xs from rfl,
      show List.foldr (insertDescBy k) [] (xs.map g) = sortByDesc k (xs.map g) from rfl,
      insertDescBy_map g key k hk, ih]

theorem jsGet_map_congr {β : Type} (f : VariantResult → β)
    (r₁ : List (String × VariantResult)) (key : String) :
    ∀ r₂ : List (String × VariantResult),
      r₁.map (fun p => (p.1, f p.2)) = r₂.map (fun p => (p.1, f p.2)) →
      (jsGet r₁ key).map f = (jsGet r₂ key).map f := by
  induction r₁ with
  | nil =>
    intro r₂ h
    cases r₂ with
    | nil => rfl
    | cons q qs => exact List.noConfusion h
  | cons p ps ih =>
    intro r₂ h
    cases r₂ with
    | nil => exact List.noConfusion h
    | cons q qs =>
      simp only [List.map_cons, List.cons.injEq, Prod.mk.injEq] at h
      obtain ⟨⟨h1, h2⟩, hrest⟩ := h
      unfold jsGet
      cases hpk : (p.1 == key) with
      | true =>
        have hqk : (q.1 == key) = true := by rw [← h1]; exact hpk
        simp only [List.find?_cons, hpk, hqk]
        exact congrArg some h2
      | false =>
        have hqk : (q.1 == key) = false := by rw [← h1]; exact hpk
        simp only [List.find?_cons, hpk, hqk]
        exact ih qs hrest

theorem bestLiftStep_congr (r₁ r₂ : List (String × VariantResult)) (cRate : ℚ)
    (h : r₁.map (fun p => (p.1, winnerView p.2)) = r₂.map (fun p => (p.1, winnerView p.2)))
    (v : ExperimentVariant) (acc₁ acc₂ : Option VariantResult × ℚ)
    (hacc1 : acc₁.1.map winnerView = acc₂.1.map winnerView) (hacc2 : acc₁.2 = acc₂.2) :
    (bestLiftStep r₁ cRate acc₁ v).1.map winnerView =
      (bestLiftStep r₂ cRate acc₂ v).1.map winnerView ∧
    (bestLiftStep r₁ cRate acc₁ v).2 = (bestLiftStep r₂ cRate acc₂ v).2 := by
  unfold bestLiftStep
  by_cases hc : v.isControl
  · rw [if_pos hc, if_pos hc]
    exact ⟨hacc1, hacc2⟩
  · rw [if_neg hc, if_neg hc]
    have hget := jsGet_map_congr winnerView r₁ v.id r₂ h
    cases hg1 : jsGet r₁ v.id with
    | none =>
      cases hg2 : jsGet r₂ v.id with
      | none => exact ⟨hacc1, hacc2⟩
      | some w => rw [hg1, hg2] at hget; exact Option.noConfusion hget
    | some w1 =>
      cases hg2 : jsGet r₂ v.id with
      | none => rw [hg1, hg2] at hget; exact Option.noConfusion hget
      | some w2 =>
        rw [hg1, hg2] at hget
        simp only [Option.map_some', Option.some.injEq] at hget
        have hrate : w1.conversionRate = w2.conversionRate := by
          have := congrArg (fun t => t.2.2) hget
          simpa [winnerView] using this
        dsimp only
        rw [hrate, hacc2]
        split
        · exact ⟨by simpa using hget, rfl⟩
        · exact ⟨hacc1, hacc2⟩

theorem bestLiftFold_congr (r₁ r₂ : List (String × VariantResult)) (cRate : ℚ)
    (h : r₁.map (fun p => (p.1, winnerView p.2)) = r₂.map (fun p => (p.1, winnerView p.2)))
    (variants : List ExperimentVariant) :
    (bestLiftFold r₁ cRate variants).1.map winnerView =
      (bestLiftFold r₂ cRate variants).1.map winnerView ∧
    (bestLiftFold r₁ cRate variants).2 = (bestLiftFold r₂ cRate variants).2 := by
  unfold bestLiftFold
  suffices H : ∀ (vs : List ExperimentVariant) (acc₁ acc₂ : Option VariantResult × ℚ),
      acc₁.1.map winnerView = acc₂.1.map winnerView → acc₁.2 = acc₂.2 →
      (vs.foldl (bestLiftStep r₁ cRate) acc₁).1.map winnerView =
        (vs.foldl (bestLiftStep r₂ cRate) acc₂).1.map winnerView ∧
      (vs.foldl (bestLiftStep r₁ cRate) acc₁).2 =
        (vs.foldl (bestLiftStep r₂ cRate) acc₂).2 by
    exact H variants (none, 0) (none, 0) rfl rfl
  intro vs
  induction vs with
  | nil => intro acc₁ acc₂ h1 h2; exact ⟨h1, h2⟩
  | cons v rest ih =>
    intro acc₁ acc₂ h1 h2
    simp only [List.foldl_cons]
    obtain ⟨g1, g2⟩ := bestLiftStep_congr r₁ r₂ cRate h v acc₁ acc₂ h1 h2
    exact ih _ _ g1 g2

theorem determineWinner_congr (r₁ r₂ : List (String × VariantResult))
    (variants : List ExperimentVariant)
    (h : r₁.map (fun p => (p.1, winnerView p.2)) = r₂.map (fun p => (p.1, winnerView p.2))) :
    determineWinner r₁ variants = determineWinner r₂ variants := by
  have hvals : (r₁.map (fun p => p.2)).map winnerView = (r₂.map (fun p => p.2)).map winnerView := by
    have e1 : ∀ l : List (String × VariantResult),
        (l.map (fun p => p.2)).map winnerView =
          (l.map (fun p => (p.1, winnerView p.2))).map (fun q => q.2) := by
      intro l
      rw [List.map_map, List.map_map]
      rfl
    rw [e1, e1, h]
  unfold determineWinner
  cases hfind : variants.find? (fun v => v.isControl) with
  | none =>
    dsimp only
    unfold determineWinnerNoControl
    have hsort : (sortByDesc (fun r => r.conversionRate) (r₁.map (fun p => p.2))).map winnerView =
        (sortByDesc (fun r => r.conversionRate) (r₂.map (fun p => p.2))).map winnerView := by
      rw [sortByDesc_map winnerView (fun r => r.conversionRate) (fun q => q.2.2)
          (fun a => rfl),
        sortByDesc_map winnerView (fun r => r.conversionRate) (fun q => q.2.2)
          (fun a => rfl),
        hvals]
    cases hs1 : sortByDesc (fun r => r.conversionRate) (r₁.map (fun p => p.2)) with
    | nil =>
      cases hs2 : sortByDesc (fun r => r.conversionRate) (r₂.map (fun p => p.2)) with
      | nil => rfl
      | cons b t => rw [hs1, hs2] at hsort; simp at hsort
    | cons b1 t1 =>
      cases hs2 : sortByDesc (fun r => r.conversionRate) (r₂.map (fun p => p.2)) with
      | nil => rw [hs1, hs2] at hsort; simp at hsort
      | cons b2 t2 =>
        rw [hs1, hs2] at hsort
        simp only [List.map_cons, List.cons.injEq] at hsort
        obtain ⟨hb, ht⟩ := hsort
        have hbid : b1.variantId = b2.variantId := congrArg (fun t => t.1) hb
        have hbrate : b1.conversionRate = b2.conversionRate := congrArg (fun t => t.2.2) hb
        cases t1 with
        | nil =>
          cases t2 with
          | nil => dsimp only; rw [hbid]
          | cons c2 u2 => exact List.noConfusion ht
        | cons c1 u1 =>
          cases t2 with
          | nil => exact List.noConfusion ht
          | cons c2 u2 =>
            simp only [List.map_cons, List.cons.injEq] at ht
            obtain ⟨hcz, _⟩ := ht
            have hcrate : c1.conversionRate = c2.conversionRate := congrArg (fun t => t.2.2) hcz
            dsimp only
            rw [hbid, hbrate, hcrate, calculateConfidence_congr hb hcz]
  | some control =>
    dsimp only
    unfold determineWinnerWithControl
    have hget := jsGet_map_congr winnerView r₁ control.id r₂ h
    cases hg1 : jsGet r₁ control.id with
    | none =>
      cases hg2 : jsGet r₂ control.id with
      | none => rfl
      | some w => rw [hg1, hg2] at hget; exact Option.noConfusion hget
    | some cr1 =>
      cases hg2 : jsGet r₂ control.id with
      | none => rw [hg1, hg2] at hget; exact Option.noConfusion hget
      | some cr2 =>
        rw [hg1, hg2] at hget
        simp only [Option.map_some', Option.some.injEq] at hget
        have hcrate : cr1.conversionRate = cr2.conversionRate := congrArg (fun t => t.2.2) hget
        dsimp only
        rw [hcrate]
        obtain ⟨f1, f2⟩ := bestLiftFold_congr r₁ r₂ cr2.conversionRate h variants
        cases hb1 : (bestLiftFold r₁ cr2.conversionRate variants).1 with
        | none =>
          cases hb2 : (bestLiftFold r₂ cr2.conversionRate variants).1 with
          | none => rfl
          | some w => rw [hb1, hb2] at f1; exact Option.noConfusion f1
        | some bv1 =>
          cases hb2 : (bestLiftFold r₂ cr2.conversionRate variants).1 with
          | none => rw [hb1, hb2] at f1; exact Option.noConfusion f1
          | some bv2 =>
            rw [hb1, hb2] at f1
            simp only [Option.map_some', Option.some.injEq] at f1
            have hbid : bv1.variantId = bv2.variantId := congrArg (fun t => t.1) f1
            rw [f2]
            dsimp only
            by_cases hle : (bestLiftFold r₂ cr2.conversionRate variants).2 ≤ 0
            · rw [if_pos hle, if_pos hle]
            · rw [if_neg hle, if_neg hle]
              rw [hbid, calculateConfidence_congr f1 hget]

/-- Claim C6 (amended): permuting the session list before aggregation
leaves every field of every VariantResult except the two top-N ranking
lists unchanged (with the same keys in the same order), and leaves the
winner, the confidence and the significance flag unchanged. The
topExitReasons and topConversionTriggers lists are not invariant: tied
counts keep first-occurrence order, so their order, and at the top-5
boundary their membership, can change with the input order. -/
theorem analyzeResults_perm_invariant (eid : String)
    (s₁ s₂ : List AgentSession) (variants : List ExperimentVariant)
    (h : s₁.Perm s₂) :
    (analyzeResults eid s₁ variants).variantResults.map
        (fun p => (p.1, variantNumericView p.2)) =
      (analyzeResults eid s₂ variants).variantResults.map
        (fun p => (p.1, variantNumericView p.2)) ∧
    (analyzeResults eid s₁ variants).winner = (analyzeResults eid s₂ variants).winner ∧
    (analyzeResults eid s₁ variants).confidence =
      (analyzeResults eid s₂ variants).confidence ∧
    (analyzeResults eid s₁ variants).isSignificant =
      (analyzeResults eid s₂ variants).isSignificant := by
  have hnum := buildVariantResults_perm_numeric h variants
  have hw := determineWinner_congr (buildVariantResults s₁ variants)
    (buildVariantResults s₂ variants) variants
    (winnerView_map_of_numeric _ _ hnum)
  refine ⟨?_, ?_, ?_, ?_⟩
  · rw [analyzeResults_variantResults, analyzeResults_variantResults]; exact hnum
  · rw [analyzeResults_winner, analyzeResults_winner, hw]
  · rw [analyzeResults_confidence, analyzeResults_confidence, hw]
  · rw [analyzeResults_isSignificant, analyzeResults_isSignificant, hw]

/-- Witness for the amended claim C6 at a concrete pair of permuted
session lists. -/
theorem analyzeResults_perm_invariant_witness :
    (analyzeResults "exp" [sessionReasonA, sessionReasonB] [plainVariant]).winner =
      (analyzeResults "exp" [sessionReasonB, sessionReasonA] [plainVariant]).winner ∧
    (analyzeResults "exp" [sessionReasonA, sessionReasonB] [plainVariant]).confidence =
      (analyzeResults "exp" [sessionReasonB, sessionReasonA] [plainVariant]).confidence := by
  have h := analyzeResults_perm_invariant "exp" [sessionReasonA, sessionReasonB]
    [sessionReasonB, sessionReasonA] [plainVariant]
    (List.Perm.swap sessionReasonB sessionReasonA [])
  exact ⟨h.2.1, h.2.2.1⟩

/-- Counterexample to claim C6 as stated: swapping two sessions of the
same variant with distinct exit reasons permutes the input yet changes
the VariantResult, because the order of the tied entries inside
topExitReasons follows first occurrence. -/
theorem analyzeResults_perm_cex :
    [sessionReasonA, sessionReasonB].Perm [sessionReasonB, sessionReasonA] ∧
    (analyzeResults "exp" [sessionReasonA, sessionReasonB] [plainVariant]).variantResults ≠
      (analyzeResults "exp" [sessionReasonB, sessionReasonA] [plainVariant]).variantResults ∧
    ((analyzeResults "exp" [sessionReasonA, sessionReasonB] [plainVariant]).variantResults.map
      (fun p => p.2.topExitReasons)) =
      [[{ reason := "reason a", count := 1 }, { reason := "reason b", count := 1 }]] ∧
    ((analyzeResults "exp" [sessionReasonB, sessionReasonA] [plainVariant]).variantResults.map
      (fun p => p.2.topExitReasons)) =
      [[{ reason := "reason b", count := 1 }, { reason := "reason a", count := 1 }]] := by
  refine ⟨List.Perm.swap sessionReasonB sessionReasonA [], ?_, ?_, ?_⟩
  · with_unfolding_all decide
  · with_unfolding_all decide
  · with_unfolding_all decide

/-! Winner determination against a control (claim C4). -/

theorem bestLiftFold_go (results : List (String × VariantResult)) (cRate : ℚ) :
    ∀ (vs : List ExperimentVariant) (acc : Option VariantResult × ℚ),
      acc.2 ≤ (vs.foldl (bestLiftStep results cRate) acc).2 ∧
      (∀ v ∈ vs, v.isControl = false → ∀ r, jsGet results v.id = some r →
        r.conversionRate - cRate ≤ (vs.foldl (bestLiftStep results cRate) acc).2) ∧
      ((vs.foldl (bestLiftStep results cRate) acc) = acc ∨
        ∃ r, (vs.foldl (bestLiftStep results cRate) acc).1 = some r ∧
          (vs.foldl (bestLiftStep results cRate) acc).2 = r.conversionRate - cRate ∧
          acc.2 < (vs.foldl (bestLiftStep results cRate) acc).2 ∧
          ∃ v ∈ vs, v.isControl = false ∧ jsGet results v.id = some r) := by
  intro vs
  induction vs with
  | nil =>
    intro acc
    exact ⟨le_rfl, by simp, Or.inl rfl⟩
  | cons v rest ih =>
    intro acc
    simp only [List.foldl_cons]
    obtain ⟨ih1, ih2, ih3⟩ := ih (bestLiftStep results cRate acc v)
    have hstep : bestLiftStep results cRate acc v = acc ∨
        ∃ r, bestLiftStep results cRate acc v = (some r, r.conversionRate - cRate) ∧
          acc.2 < r.conversionRate - cRate ∧
          v.isControl = false ∧ jsGet results v.id = some r := by
      unfold bestLiftStep
      by_cases hctl : v.isControl
      · rw [if_pos hctl]; exact Or.inl rfl
      · rw [if_neg hctl]
        cases hg : jsGet results v.id with
        | none => exact Or.inl rfl
        | some r =>
          dsimp only
          by_cases hlt : r.conversionRate - cRate > acc.2
          · rw [if_pos hlt]
            exact Or.inr ⟨r, rfl, hlt, Bool.eq_false_iff.mpr hctl, rfl⟩
          · rw [if_neg hlt]
            exact Or.inl rfl
    have hstep2 : acc.2 ≤ (bestLiftStep results cRate acc v).2 := by
      rcases hstep with he | ⟨r, he, hlt, _, _⟩
      · rw [he]
      · rw [he]; exact le_of_lt hlt
    have hstepv : v.isControl = false → ∀ r, jsGet results v.id = some r →
        r.conversionRate - cRate ≤ (bestLiftStep results cRate acc v).2 := by
      intro hctl r hg
      unfold bestLiftStep
      rw [if_neg (by rw [hctl]; exact Bool.false_ne_true), hg]
      dsimp only
      by_cases hlt : r.conversionRate - cRate > acc.2
      · rw [if_pos hlt]
      · rw [if_neg hlt]
        exact le_of_not_lt hlt
    refine ⟨hstep2.trans ih1, ?_, ?_⟩
    · intro v2 hv2 hctl2 r2 hg2
      rcases List.mem_cons.mp hv2 with he | hmem
      · subst he
        exact (hstepv hctl2 r2 hg2).trans ih1
      · exact ih2 v2 hmem hctl2 r2 hg2
    · rcases ih3 with he | ⟨r, h1, h2, h3, v2, hv2, hctl2, hg2⟩
      · rw [he]
        rcases hstep with he2 | ⟨r, he2, hlt, hctl, hg⟩
        · exact Or.inl he2
        · refine Or.inr ⟨r, ?_, ?_, ?_, v, List.mem_cons_self v rest, hctl, hg⟩
          · rw [he2]
          · rw [he2]
          · rw [he2]; exact hlt
      · refine Or.inr ⟨r, h1, h2, lt_of_le_of_lt hstep2 h3, v2, List.mem_cons_of_mem v hv2,
          hctl2, hg2⟩

/-- Claim C4: with a control flagged in the variants list, determineWinner
compares every non-control variant to the control by lift; when some
non-control variant has strictly positive lift the winner has the
greatest lift among them, and when none does the winner is the control
itself with confidence 50 and isSignificant false; on the no-lift
scenario (control and variant_a both 20 percent over 10 sessions) the
winner is control with confidence 50 and no significance. -/
theorem determineWinner_controlLift
    (results : List (String × VariantResult)) (variants : List ExperimentVariant)
    (control : ExperimentVariant) (controlResult : VariantResult)
    (hctrl : variants.find? (fun v => v.isControl) = some control)
    (hcr : jsGet results control.id = some controlResult) :
    ((∃ v ∈ variants, v.isControl = false ∧ ∃ r, jsGet results v.id = some r ∧
        0 < r.conversionRate - controlResult.conversionRate) →
      ∃ r, (determineWinner results variants).winner = some r.variantId ∧
        (∃ v ∈ variants, v.isControl = false ∧ jsGet results v.id = some r) ∧
        0 < r.conversionRate - controlResult.conversionRate ∧
        (∀ v2 ∈ variants, v2.isControl = false → ∀ r2, jsGet results v2.id = some r2 →
          r2.conversionRate - controlResult.conversionRate ≤
            r.conversionRate - controlResult.conversionRate)) ∧
    ((∀ v ∈ variants, v.isControl = false → ∀ r, jsGet results v.id = some r →
        r.conversionRate - controlResult.conversionRate ≤ 0) →
      determineWinner results variants =
        { winner := some control.id, confidence := 50, isSignificant := false }) ∧
    ((analyzeResults "exp" noLiftSessions [controlVariant, variantA]).winner =
        some "control" ∧
      (analyzeResults "exp" noLiftSessions [controlVariant, variantA]).confidence = 50 ∧
      (analyzeResults "exp" noLiftSessions [controlVariant, variantA]).isSignificant =
        false) := by
  obtain ⟨hgo1, hgo2, hgo3⟩ :=
    bestLiftFold_go results controlResult.conversionRate variants (none, 0)
  have hfold_eq : variants.foldl (bestLiftStep results controlResult.conversionRate)
      ((none : Option VariantResult), (0 : ℚ)) =
      bestLiftFold results controlResult.conversionRate variants := rfl
  rw [hfold_eq] at hgo1 hgo2 hgo3
  have hdw : determineWinner results variants =
      determineWinnerWithControl results variants control := by
    unfold determineWinner
    rw [hctrl]
  refine ⟨?_, ?_, ?_⟩
  · rintro ⟨v, hv, hctl, r, hg, hpos⟩
    have hlift : r.conversionRate - controlResult.conversionRate ≤
        (bestLiftFold results controlResult.conversionRate variants).2 :=
      hgo2 v hv hctl r hg
    have hpos2 : 0 < (bestLiftFold results controlResult.conversionRate variants).2 :=
      lt_of_lt_of_le hpos hlift
    rcases hgo3 with he | ⟨r0, h1, h2, _, v0, hv0, hctl0, hg0⟩
    · rw [he] at hpos2
      exact absurd hpos2 (by norm_num)
    · refine ⟨r0, ?_, ⟨v0, hv0, hctl0, hg0⟩, by rw [← h2]; exact hpos2, ?_⟩
      · rw [hdw]
        unfold determineWinnerWithControl
        rw [hcr]
        dsimp only
        rw [h1]
        dsimp only
        rw [if_neg (not_le.mpr hpos2)]
      · intro v2 hv2 hctl2 r2 hg2
        rw [← h2]
        exact hgo2 v2 hv2 hctl2 r2 hg2
  · intro hall
    rw [hdw]
    unfold determineWinnerWithControl
    rw [hcr]
    dsimp only
    cases hb : (bestLiftFold results controlResult.conversionRate variants).1 with
    | none => rfl
    | some r0 =>
      rcases hgo3 with he | ⟨r1, h1, h2, h3, v1, hv1, hctl1, hg1⟩
      · rw [he] at hb
        exact Option.noConfusion hb
      · have : (bestLiftFold results controlResult.conversionRate variants).2 ≤ 0 := by
          rw [h2]
          exact hall v1 hv1 hctl1 r1 hg1
        dsimp only
        rw [if_pos this]
  · refine ⟨?_, ?_, ?_⟩
    · with_unfolding_all decide
    · with_unfolding_all decide
    · with_unfolding_all decide

/-- Witness for claim C4 at a concrete input: two all-zero variant
results give no positive lift, so the winner is the control with
confidence 50. -/
theorem determineWinner_controlLift_witness :
    determineWinner [("control", createEmptyVariantResult "control"),
        ("variant_a", createEmptyVariantResult "variant_a")] [controlVariant, variantA] =
      { winner := some "control", confidence := 50, isSignificant := false } := by
  have h := (determineWinner_controlLift
      [("control", createEmptyVariantResult "control"),
        ("variant_a", createEmptyVariantResult "variant_a")]
      [controlVariant, variantA] controlVariant (createEmptyVariantResult "control")
      (by decide) (by decide)).2.1
  refine h ?_
  intro v hv hctl r hr
  fin_cases hv
  · exact absurd hctl (by decide)
  · have hr2 : some (createEmptyVariantResult "variant_a") = some r := by
      rw [← hr]
      decide
    have hr3 : r = createEmptyVariantResult "variant_a" := (Option.some.inj hr2).symm
    subst hr3
    norm_num [createEmptyVariantResult]

/-! Failure isolation in the scheduler (claim C1). -/

theorem runSessions_get (runner : SwarmRunner) (config : ExperimentConfig)
    (oracles : RunOracles) (i : ℕ) :
    (runSessions runner config oracles).get? i =
      ((shuffledQueue config oracles).get? i).map
        (fun item => runSessionSlot runner config oracles i item) := by
  rw [runSessions_eq_map, List.get?_eq_getElem?, List.get?_eq_getElem?, List.getElem?_map,
    List.getElem?_enum, Option.map_map]
  rfl

/-- Claim C1: a throwing executor call is replaced in its slot by the
synthesized failed record with converted false, negative impression, the
Error-prefixed exit reason and the singleton error list; a slot depends
only on its own executor call, so one failing call never changes a
sibling slot; and when the executor throws on every call, runExperiment
still returns a complete result whose records all carry converted false
and a populated error list. -/
theorem runExperiment_failureIsolation (runner : SwarmRunner) (config : ExperimentConfig)
    (oracles : RunOracles) :
    (∀ (i : ℕ) (item : QueueItem) (e : JsError),
      (shuffledQueue config oracles).get? i = some item →
      runner.agent (slotRunConfig config item) = .error e →
      (runSessions runner config oracles).get? i =
        some (createFailedSession item.variant.id item.persona config.url e
          (oracles.failClock i))) ∧
    (∀ (vid : String) (p : Option Persona) (url : String) (e : JsError) (t : ℚ),
      (createFailedSession vid p url e t).converted = false ∧
      (createFailedSession vid p url e t).impression = some .negative ∧
      (createFailedSession vid p url e t).exitReason = some ("Error: " ++ errMsgOf e) ∧
      (createFailedSession vid p url e t).errors = some [errMsgOf e]) ∧
    (∀ (agent2 : SessionExecutor) (i : ℕ) (item : QueueItem),
      (shuffledQueue config oracles).get? i = some item →
      runner.agent (slotRunConfig config item) = agent2 (slotRunConfig config item) →
      (runSessions runner config oracles).get? i =
        (runSessions { runner with agent := agent2 } config oracles).get? i) ∧
    ((∀ c, ∃ e, runner.agent c = Except.error e) →
      (runExperiment runner config oracles).result.sessions.length =
        (shuffledQueue config oracles).length ∧
      ∀ s ∈ (runExperiment runner config oracles).result.sessions,
        s.converted = false ∧ s.impression = some .negative ∧
        ∃ m, s.errors = some [m] ∧ s.exitReason = some ("Error: " ++ m)) := by
  refine ⟨?_, ?_, ?_, ?_⟩
  · intro i item e hqi herr
    rw [runSessions_get, hqi, Option.map_some']
    unfold runSessionSlot
    rw [herr]
  · intro vid p url e t
    exact ⟨rfl, rfl, rfl, rfl⟩
  · intro agent2 i item hqi hagree
    rw [runSessions_get, runSessions_get, hqi, Option.map_some', Option.map_some']
    unfold runSessionSlot
    rw [hagree]
  · intro hfail
    constructor
    · rw [runExperiment_result, analyzeResults_sessions, runSessions_length]
    · intro s hs
      rw [runExperiment_result, analyzeResults_sessions, runSessions_eq_map] at hs
      obtain ⟨p, _, hp⟩ := List.mem_map.mp hs
      obtain ⟨e, he⟩ := hfail (slotRunConfig config p.2)
      rw [← hp]
      unfold runSessionSlot
      rw [he]
      exact ⟨rfl, rfl, errMsgOf e, rfl, rfl⟩

/-- Witness for claim C1 at a concrete run: the always-throwing executor
fills the first slot with the synthesized failed record, and the full
result has as many records as queue slots. -/
theorem runExperiment_failureIsolation_witness :
    (runSessions failRunner testConfig testOracles).get? 0 =
      some (createFailedSession "control" (some { id := "p2" }) testConfig.url
        (some "boom") (testOracles.failClock 0)) ∧
    (runExperiment failRunner testConfig testOracles).result.sessions.length =
      (shuffledQueue testConfig testOracles).length := by
  have h := runExperiment_failureIsolation failRunner testConfig testOracles
  constructor
  · exact h.1 0 { variant := controlVariant, persona := some { id := "p2" } }
      (some "boom") (by decide) rfl
  · exact (h.2.2.2 (fun c => ⟨some "boom", rfl⟩)).1

/-! Queue completeness and per-variant counts (claim C2). -/

theorem runSessionSlot_variantId (runner : SwarmRunner) (config : ExperimentConfig)
    (oracles : RunOracles) (i : ℕ) (item : QueueItem)
    (hecho : ∀ c s, runner.agent c = .ok s → s.variantId = c.variantId) :
    (runSessionSlot runner config oracles i item).variantId = item.variant.id := by
  unfold runSessionSlot
  cases hg : runner.agent (slotRunConfig config item) with
  | ok s => exact hecho _ s hg
  | error e => rfl

theorem runSessions_map_variantId (runner : SwarmRunner) (config : ExperimentConfig)
    (oracles : RunOracles)
    (hecho : ∀ c s, runner.agent c = .ok s → s.variantId = c.variantId) :
    (runSessions runner config oracles).map (fun s => s.variantId) =
      (shuffledQueue config oracles).map (fun item => item.variant.id) := by
  rw [runSessions_eq_map, List.map_map]
  rw [List.map_congr_left (fun p _ =>
    runSessionSlot_variantId runner config oracles p.1 p.2 hecho)]
  rw [show (fun p : ℕ × QueueItem => p.2.variant.id) =
    ((fun item : QueueItem => item.variant.id) ∘ Prod.snd) from rfl]
  rw [← List.map_map, List.enum_map_snd]

theorem buildSessionQueue_mem_variant {variants : List ExperimentVariant}
    {personas : List Persona} {spv : ℤ} {item : QueueItem}
    (h : item ∈ buildSessionQueue variants personas spv) : item.variant ∈ variants := by
  unfold buildSessionQueue at h
  obtain ⟨w, hw, hmem⟩ := List.mem_flatMap.mp h
  obtain ⟨i, _, hi⟩ := List.mem_map.mp hmem
  rw [← hi]
  exact hw

theorem buildSessionQueue_count (personas : List Persona) (spv : ℤ)
    (v : ExperimentVariant) :
    ∀ variants : List ExperimentVariant,
      (variants.map (fun w => w.id)).Nodup → v ∈ variants →
      ((buildSessionQueue variants personas spv).map
        (fun item => item.variant.id)).count v.id = spv.toNat := by
  intro variants
  induction variants with
  | nil => intro _ hv; cases hv
  | cons w ws ih =>
    intro hnodup hv
    have hsplit : buildSessionQueue (w :: ws) personas spv =
        ((List.range spv.toNat).map (fun i =>
            (⟨w, personas.get? (i % personas.length)⟩ : QueueItem))) ++
          buildSessionQueue ws personas spv := by
      unfold buildSessionQueue
      rw [List.flatMap_cons]
    rw [hsplit, List.map_append, List.count_append]
    have hrep : ∀ l : List ℕ,
        ((l.map (fun i => (⟨w, personas.get? (i % personas.length)⟩ : QueueItem))).map
          (fun item => item.variant.id)) = List.replicate l.length w.id := by
      intro l
      induction l with
      | nil => rfl
      | cons x xs ihl =>
        rw [List.map_map] at ihl
        simp only [List.map_cons, List.length_cons, List.replicate_succ, List.map_map]
        rw [ihl]

    rw [hrep, List.length_range]
    simp only [List.map_cons, List.nodup_cons] at hnodup
    obtain ⟨hwid, hnd⟩ := hnodup
    rcases List.mem_cons.mp hv with he | hmem
    · subst he
      rw [List.count_replicate_self]
      have hzero : ((buildSessionQueue ws personas spv).map
          (fun item => item.variant.id)).count v.id = 0 := by
        refine List.count_eq_zero.mpr ?_
        intro hmem2
        obtain ⟨item, hitem, hid⟩ := List.mem_map.mp hmem2
        refine hwid ?_
        rw [← hid]
        exact List.mem_map_of_mem _ (buildSessionQueue_mem_variant hitem)
      rw [hzero]
      omega
    · have hne : v.id ≠ w.id := by
        intro he
        exact hwid (he ▸ List.mem_map_of_mem (fun x => x.id) hmem)
      rw [List.count_replicate, if_neg (by simpa using hne.symm), ih hnd hmem, Nat.zero_add]

/-- Claim C2: with non-empty variants and personas, at least one session
per variant, distinct variant ids and an executor echoing the requested
variant id (as BrowserAgent.run does), the returned session list has
exactly variants.length * sessionsPerVariant records and each variant id
labels exactly sessionsPerVariant of them, however many calls fail. -/
theorem runExperiment_sessionCounts (runner : SwarmRunner) (config : ExperimentConfig)
    (oracles : RunOracles)
    (hne : config.variants ≠ []) (hpne : config.personas ≠ [])
    (hspv : 1 ≤ config.sessionsPerVariant)
    (hnodup : (config.variants.map (fun v => v.id)).Nodup)
    (hecho : ∀ c s, runner.agent c = .ok s → s.variantId = c.variantId) :
    ((runExperiment runner config oracles).result.sessions.length : ℤ) =
      config.variants.length * config.sessionsPerVariant ∧
    ∀ v ∈ config.variants,
      (((runExperiment runner config oracles).result.sessions.filter
        (fun s => s.variantId == v.id)).length : ℤ) = config.sessionsPerVariant := by
  have hcast : ((config.sessionsPerVariant.toNat : ℤ)) = config.sessionsPerVariant :=
    Int.toNat_of_nonneg (by omega)
  constructor
  · rw [runExperiment_result, analyzeResults_sessions, runSessions_length,
      shuffledQueue_length]
    push_cast
    rw [hcast]
  · intro v hv
    rw [runExperiment_result, analyzeResults_sessions]
    have e1 : ((runSessions runner config oracles).filter
        (fun s => s.variantId == v.id)).length =
        ((runSessions runner config oracles).map (fun s => s.variantId)).count v.id := by
      rw [List.count_eq_countP, List.countP_map, List.countP_eq_length_filter]
      rfl
    have hperm : ((shuffledQueue config oracles).map (fun item => item.variant.id)).Perm
        ((buildSessionQueue config.variants config.personas
          config.sessionsPerVariant).map (fun item => item.variant.id)) :=
      (shuffleArray_perm oracles.rand _).map _
    rw [e1, runSessions_map_variantId runner config oracles hecho, hperm.count_eq,
      buildSessionQueue_count config.personas config.sessionsPerVariant v
        config.variants hnodup hv, hcast]

/-- Witness for claim C2 at a concrete run: two variants, two personas,
two sessions each, with the echoing executor. -/
theorem runExperiment_sessionCounts_witness :
    ((runExperiment okRunner testConfig testOracles).result.sessions.length : ℤ) = 4 ∧
    (((runExperiment okRunner testConfig testOracles).result.sessions.filter
      (fun s => s.variantId == "variant_a")).length : ℤ) = 2 := by
  have h := runExperiment_sessionCounts okRunner testConfig testOracles
    (by decide) (by decide) (by decide) (by decide)
    (fun c s hs => by
      have h2 : Except.ok ({ testSession c.variantId false with
          url := c.url, persona := c.persona } : AgentSession) = Except.ok s := hs
      cases h2
      rfl)
  exact ⟨h.1, h.2 variantA (by decide)⟩

/-- Claim C10: runExperiment never reads config.maxConcurrent: changing
only that field changes nothing observable, the batch partition is the
maxConcurrent-sized slicing of the indexed queue for the runner value
set at construction, and the constructor defaults maxConcurrent to 3
when it is unset (or 0, which is falsy). -/
theorem runExperiment_ignoresConfigMaxConcurrent (runner : SwarmRunner)
    (config : ExperimentConfig) (m : Option ℤ) (oracles : RunOracles)
    (agent : SessionExecutor) :
    runExperiment runner { config with maxConcurrent := m } oracles =
      runExperiment runner config oracles ∧
    batchPartition runner { config with maxConcurrent := m } oracles =
      batchPartition runner config oracles ∧
    batchPartition runner config oracles =
      chunkList runner.maxConcurrent (shuffledQueue config oracles).enum ∧
    (SwarmRunner.create agent none).maxConcurrent = 3 ∧
    (SwarmRunner.create agent
      (some { maxConcurrent := none, delayBetweenSessions := none })).maxConcurrent = 3 ∧
    (SwarmRunner.create agent
      (some { maxConcurrent := some 0, delayBetweenSessions := none })).maxConcurrent = 3 ∧
    (SwarmRunner.create agent
      (some { maxConcurrent := some 7, delayBetweenSessions := none })).maxConcurrent = 7 :=
  ⟨rfl, rfl, rfl, rfl, rfl, rfl, rfl⟩

/-! Progress-callback properties (claim C9). -/

theorem runningStatuses_length (eid : String) (total : ℕ) (clock : ℕ → ℚ) :
    ∀ (sessions : List AgentSession) (k : ℕ) (sbv : List (String × Option ℚ)),
      (runningStatuses eid total clock sessions k sbv).1.length = sessions.length := by
  intro sessions
  induction sessions with
  | nil => intro k sbv; rfl
  | cons s rest ih =>
    intro k sbv
    rw [runningStatuses]
    simp only [List.length_cons, ih]

theorem runningStatuses_facts (eid : String) (total : ℕ) (clock : ℕ → ℚ) :
    ∀ (sessions : List AgentSession) (k : ℕ) (sbv : List (String × Option ℚ)),
      k + sessions.length ≤ total →
      ∀ st ∈ (runningStatuses eid total clock sessions k sbv).1,
        st.totalSessions = total ∧ st.completedSessions ≤ total ∧ st.state = .running ∧
        st.progress = (st.completedSessions : ℚ) / (total : ℚ) * 100 := by
  intro sessions
  induction sessions with
  | nil =>
    intro k sbv hk st hst
    cases hst
  | cons s rest ih =>
    intro k sbv hk st hst
    rw [runningStatuses] at hst
    rcases List.mem_cons.mp hst with he | hm
    · subst he
      refine ⟨rfl, ?_, rfl, rfl⟩
      simp only [List.length_cons] at hk
      show k + 1 ≤ total
      omega
    · refine ih (k + 1) _ ?_ st hm
      simp only [List.length_cons] at hk
      omega

theorem runningStatuses_completed (eid : String) (total : ℕ) (clock : ℕ → ℚ) :
    ∀ (sessions : List AgentSession) (k : ℕ) (sbv : List (String × Option ℚ)),
      ((runningStatuses eid total clock sessions k sbv).1).map
        (fun st => st.completedSessions) =
        (List.range sessions.length).map (fun j => k + j + 1) := by
  intro sessions
  induction sessions with
  | nil => intro k sbv; rfl
  | cons s rest ih =>
    intro k sbv
    rw [runningStatuses]
    simp only [List.map_cons, List.length_cons, List.range_succ_eq_map, List.map_map]
    rw [ih]
    refine congrArg (fun t => (k + 1) :: t) ?_
    apply List.map_congr_left
    intro j _
    simp only [Function.comp]
    omega

theorem runningStatuses_chain (eid : String) (total : ℕ) (clock : ℕ → ℚ)
    (htotal : 0 < total) :
    ∀ (sessions : List AgentSession) (k : ℕ) (sbv : List (String × Option ℚ))
      (st0 : ExperimentStatus),
      st0.progress ≤ ((k : ℚ) + 1) / (total : ℚ) * 100 →
      List.Chain (fun a b => a.progress ≤ b.progress) st0
        ((runningStatuses eid total clock sessions k sbv).1) := by
  have htq : (0 : ℚ) < (total : ℚ) := by exact_mod_cast htotal
  intro sessions
  induction sessions with
  | nil => intro k sbv st0 h; exact List.Chain.nil
  | cons s rest ih =>
    intro k sbv st0 h
    rw [runningStatuses]
    refine List.Chain.cons ?_ (ih (k + 1) _ _ ?_)
    · refine le_trans h ?_
      show ((k : ℚ) + 1) / (total : ℚ) * 100 ≤ ((k + 1 : ℕ) : ℚ) / (total : ℚ) * 100
      push_cast
      exact le_refl _
    · show ((k + 1 : ℕ) : ℚ) / (total : ℚ) * 100 ≤ (((k + 1 : ℕ) : ℚ) + 1) / (total : ℚ) * 100
      have hle : ((k + 1 : ℕ) : ℚ) ≤ ((k + 1 : ℕ) : ℚ) + 1 := by linarith
      exact mul_le_mul_of_nonneg_right ((div_le_div_iff_of_pos_right htq).mpr hle) (by norm_num)

theorem getLast?_cons_getD (a : α) :
    ∀ l : List α, (a :: l).getLast? = some (l.getLast?.getD a) := by
  intro l
  induction l generalizing a with
  | nil => rfl
  | cons b t ih =>
    rw [List.getLast?_cons_cons, ih b]
    rfl

theorem progressTrace_spec (eid : String) (n : ℕ) (clock : ℕ → ℚ)
    (sessions : List AgentSession) (sbv0 : List (String × Option ℚ))
    (st0 : ExperimentStatus) (hn : 0 < n) (hlen : sessions.length = n)
    (h0prog : st0.progress = 0) (h0total : st0.totalSessions = n)
    (h0completed : st0.completedSessions = 0) :
    List.Chain' (fun a b => a.progress ≤ b.progress)
      ((st0 :: (runningStatuses eid n clock sessions 0 sbv0).1) ++
        [{ (runningStatuses eid n clock sessions 0 sbv0).1.getLast?.getD st0 with
            state := .analyzing },
         { (runningStatuses eid n clock sessions 0 sbv0).1.getLast?.getD st0 with
            state := .completed, progress := 100 }]) ∧
    (∀ st : ExperimentStatus,
      st ∈ (st0 :: (runningStatuses eid n clock sessions 0 sbv0).1) ++
        [{ (runningStatuses eid n clock sessions 0 sbv0).1.getLast?.getD st0 with
            state := .analyzing },
         { (runningStatuses eid n clock sessions 0 sbv0).1.getLast?.getD st0 with
            state := .completed, progress := 100 }] →
      st.progress = (st.completedSessions : ℚ) / (st.totalSessions : ℚ) * 100 ∧
      st.completedSessions ≤ st.totalSessions) ∧
    (((st0 :: (runningStatuses eid n clock sessions 0 sbv0).1) ++
        [{ (runningStatuses eid n clock sessions 0 sbv0).1.getLast?.getD st0 with
            state := .analyzing },
         { (runningStatuses eid n clock sessions 0 sbv0).1.getLast?.getD st0 with
            state := .completed, progress := 100 }]).getLast?.map
      (fun st : ExperimentStatus => (st.state, st.progress))) =
      some (.completed, 100) := by
  have hnq : ((n : ℚ)) ≠ 0 := by
    have := hn
    positivity
  have hnqpos : (0 : ℚ) < (n : ℚ) := by exact_mod_cast hn
  set updates := (runningStatuses eid n clock sessions 0 sbv0).1 with hupdates
  have hulen : updates.length = n := by
    rw [hupdates, runningStatuses_length, hlen]
  have hune : updates ≠ [] := by
    intro he
    rw [he] at hulen
    simp at hulen
    omega
  obtain ⟨z, hz⟩ : ∃ z, updates.getLast? = some z := by
    cases hu : updates.getLast? with
    | none => exact absurd (List.getLast?_eq_none_iff.mp hu) hune
    | some z => exact ⟨z, rfl⟩
  have hzmem : z ∈ updates := List.mem_of_mem_getLast? (by rw [hz]; rfl)
  have hfacts := runningStatuses_facts eid n clock sessions 0 sbv0
    (by rw [hlen]; omega)
  have hzfacts := hfacts z hzmem
  have hzcompleted : z.completedSessions = n := by
    obtain ⟨m, hm⟩ : ∃ m, n = m + 1 := ⟨n - 1, by omega⟩
    have hmap : updates.map (fun st => st.completedSessions) =
        (List.range sessions.length).map (fun j => 0 + j + 1) :=
      runningStatuses_completed eid n clock sessions 0 sbv0
    have hlast : (updates.map (fun st => st.completedSessions)).getLast? =
        some (0 + m + 1) := by
      rw [hmap, hlen, hm, List.range_succ, List.map_append]
      simp
    rw [List.getLast?_map, hz, Option.map_some'] at hlast
    have := Option.some.inj hlast
    omega
  have hgetD : updates.getLast?.getD st0 = z := by rw [hz]; rfl
  have hlastTotal : (updates.getLast?.getD st0).totalSessions = n := by
    rw [hgetD]; exact hzfacts.1
  have hlastCompleted : (updates.getLast?.getD st0).completedSessions = n := by
    rw [hgetD]; exact hzcompleted
  have hlastProg : (updates.getLast?.getD st0).progress =
      ((updates.getLast?.getD st0).completedSessions : ℚ) / (n : ℚ) * 100 := by
    rw [hgetD]; exact hzfacts.2.2.2
  have hlastProg100 : (updates.getLast?.getD st0).progress = 100 := by
    rw [hlastProg, hlastCompleted, div_self hnq]
    norm_num
  refine ⟨?_, ?_, ?_⟩
  · refine List.chain'_append.mpr ⟨?_, ?_, ?_⟩
    · show List.Chain (fun a b => a.progress ≤ b.progress) st0 updates
      refine runningStatuses_chain eid n clock hn sessions 0 sbv0 st0 ?_
      rw [h0prog]
      positivity
    · refine List.chain'_cons.mpr ⟨?_, List.chain'_singleton _⟩
      show (updates.getLast?.getD st0).progress ≤ 100
      rw [hlastProg100]
    · intro x hx y hy
      rw [getLast?_cons_getD] at hx
      have hxeq : x = updates.getLast?.getD st0 := (Option.some.inj hx).symm
      have hyeq : y = { updates.getLast?.getD st0 with state := .analyzing } :=
        (Option.some.inj hy).symm
      rw [hxeq, hyeq]
  · intro st hst
    rcases List.mem_append.mp hst with hmem | hmem
    · rcases List.mem_cons.mp hmem with he | hmem2
      · subst he
        constructor
        · rw [h0prog, h0completed, h0total]
          norm_num
        · rw [h0completed]
          omega
      · obtain ⟨ht, hc, _, hp⟩ := hfacts st hmem2
        exact ⟨by rw [ht, hp], by rw [ht]; exact hc⟩
    · rcases List.mem_cons.mp hmem with he | hmem2
      · subst he
        constructor
        · show (updates.getLast?.getD st0).progress =
            ((updates.getLast?.getD st0).completedSessions : ℚ) /
              ((updates.getLast?.getD st0).totalSessions : ℚ) * 100
          rw [hlastProg, hlastTotal]
        · show (updates.getLast?.getD st0).completedSessions ≤
            (updates.getLast?.getD st0).totalSessions
          rw [hlastTotal, hlastCompleted]
      · rcases List.mem_cons.mp hmem2 with he | hmem3
        · subst he
          constructor
          · show (100 : ℚ) =
              ((updates.getLast?.getD st0).completedSessions : ℚ) /
                ((updates.getLast?.getD st0).totalSessions : ℚ) * 100
            rw [hlastTotal, hlastCompleted, div_self hnq]
            norm_num
          · show (updates.getLast?.getD st0).completedSessions ≤
              (updates.getLast?.getD st0).totalSessions
            rw [hlastTotal, hlastCompleted]
        · cases hmem3
  · rw [getLast_append_two, Option.map_some']

/-- C9: across the status snapshots passed to the progress callback by one
runExperiment call (on any config with at least one variant and a positive
sessionsPerVariant), the progress field is monotonically non-decreasing
along the sequence, every snapshot satisfies
progress = completedSessions / totalSessions * 100 with
completedSessions ≤ totalSessions, and the final snapshot reports state
completed with progress = 100. -/
theorem runExperiment_progress (runner : SwarmRunner) (config : ExperimentConfig)
    (oracles : RunOracles) (hne : config.variants ≠ [])
    (hspv : 1 ≤ config.sessionsPerVariant) :
    List.Chain' (fun a b => a.progress ≤ b.progress)
      (runExperiment runner config oracles).statusTrace ∧
    (∀ st ∈ (runExperiment runner config oracles).statusTrace,
      st.progress = (st.completedSessions : ℚ) / (st.totalSessions : ℚ) * 100 ∧
      st.completedSessions ≤ st.totalSessions) ∧
    ((runExperiment runner config oracles).statusTrace.getLast?.map
      (fun st => (st.state, st.progress))) = some (.completed, 100) := by
  have hn : 0 < (shuffledQueue config oracles).length := by
    rw [shuffledQueue_length]
    have h1 : 0 < config.variants.length := List.length_pos.mpr hne
    have h2 : 0 < config.sessionsPerVariant.toNat := by omega
    exact Nat.mul_pos h1 h2
  exact progressTrace_spec config.id (shuffledQueue config oracles).length
    oracles.clock (runSessions runner config oracles)
    (config.variants.foldl (fun m v => jsSet m v.id (some 0)) [])
    ⟨config.id, .running, 0, 0, (shuffledQueue config oracles).length,
      config.variants.foldl (fun m v => jsSet m v.id (some 0)) [], none, none⟩
    hn (runSessions_length runner config oracles) rfl rfl rfl

theorem runExperiment_progress_witness :
    testConfig.variants ≠ [] ∧ 1 ≤ testConfig.sessionsPerVariant ∧
    (List.Chain' (fun a b => a.progress ≤ b.progress)
      (runExperiment failRunner testConfig testOracles).statusTrace ∧
    (∀ st ∈ (runExperiment failRunner testConfig testOracles).statusTrace,
      st.progress = (st.completedSessions : ℚ) / (st.totalSessions : ℚ) * 100 ∧
      st.completedSessions ≤ st.totalSessions) ∧
    ((runExperiment failRunner testConfig testOracles).statusTrace.getLast?.map
      (fun st => (st.state, st.progress))) = some (.completed, 100)) :=
  ⟨by decide, by decide,
    runExperiment_progress failRunner testConfig testOracles (by decide) (by decide)⟩

end SwarmCro
